import Mathlib

set_option maxRecDepth 100000
set_option maxHeartbeats 2000000

/-!
Verification of the upb tokenizer core (`upb/io/tokenizer.c`).

The C source is shallowly embedded: bytes are `Nat` values in `0..255`,
C strings are `List Nat` where the end of the list plays the role of the
terminating NUL byte (the loops additionally stop at an interior 0 byte,
mirroring the C loop conditions `*ptr != '\0'`), `uint64_t`/`uint32_t`
arithmetic is `Nat` arithmetic with explicit `% 2^64` / `% 2^32` at the
points where the C code can wrap, and functions that report failure via a
`bool` return are embedded as `Option`-valued functions.
-/

/-! ### Character classes (CHARACTER_CLASS macros in the C source) -/

def Whitespace (c : Nat) : Bool :=
  c = 32 || c = 10 || c = 9 || c = 13 || c = 11 || c = 12

def WhitespaceNoNewline (c : Nat) : Bool :=
  c = 32 || c = 9 || c = 13 || c = 11 || c = 12

/-- Unprintable control characters: `c < ' ' && c > '\0'`. -/
def Unprintable (c : Nat) : Bool := c < 32 && c > 0

def Digit (c : Nat) : Bool := 48 ≤ c && c ≤ 57

def OctalDigit (c : Nat) : Bool := 48 ≤ c && c ≤ 55

def HexDigit (c : Nat) : Bool :=
  (48 ≤ c && c ≤ 57) || (97 ≤ c && c ≤ 102) || (65 ≤ c && c ≤ 70)

def Letter (c : Nat) : Bool :=
  (97 ≤ c && c ≤ 122) || (65 ≤ c && c ≤ 90) || c = 95

def Alphanumeric (c : Nat) : Bool :=
  (97 ≤ c && c ≤ 122) || (65 ≤ c && c ≤ 90) || (48 ≤ c && c ≤ 57) || c = 95

/-- The set of recognized single-character escape letters. -/
def Escape (c : Nat) : Bool :=
  c = 97 || c = 98 || c = 102 || c = 110 || c = 114 || c = 116 || c = 118 ||
  c = 92 || c = 63 || c = 39 || c = 34

/-- Number of columns a tab advances to (kTabWidth in the C source). -/
def kTabWidth : Nat := 8

/-- The 256-entry digit table `kAsciiToInt`: `'0'..'9'` map to 0-9,
`'A'..'Z'` and `'a'..'z'` map to 10-35, everything else maps to the
sentinel 36.  All entries of the C `int8_t` table are nonnegative, so the
table is embedded with `Nat` entries. -/
def kAsciiToInt : List Nat := [
  36, 36, 36, 36, 36, 36, 36, 36, 36, 36, 36, 36, 36, 36, 36, 36,
  36, 36, 36, 36, 36, 36, 36, 36, 36, 36, 36, 36, 36, 36, 36, 36,
  36, 36, 36, 36, 36, 36, 36, 36, 36, 36, 36, 36, 36, 36, 36, 36,
  0,  1,  2,  3,  4,  5,  6,  7,  8,  9,
  36, 36, 36, 36, 36, 36, 36,
  10, 11, 12, 13, 14, 15, 16, 17, 18, 19, 20, 21, 22, 23, 24, 25,
  26, 27, 28, 29, 30, 31, 32, 33, 34, 35,
  36, 36, 36, 36, 36, 36,
  10, 11, 12, 13, 14, 15, 16, 17, 18, 19, 20, 21, 22, 23, 24, 25,
  26, 27, 28, 29, 30, 31, 32, 33, 34, 35,
  36, 36, 36, 36, 36,
  36, 36, 36, 36, 36, 36, 36, 36, 36, 36, 36, 36, 36, 36, 36, 36,
  36, 36, 36, 36, 36, 36, 36, 36, 36, 36, 36, 36, 36, 36, 36, 36,
  36, 36, 36, 36, 36, 36, 36, 36, 36, 36, 36, 36, 36, 36, 36, 36,
  36, 36, 36, 36, 36, 36, 36, 36, 36, 36, 36, 36, 36, 36, 36, 36,
  36, 36, 36, 36, 36, 36, 36, 36, 36, 36, 36, 36, 36, 36, 36, 36,
  36, 36, 36, 36, 36, 36, 36, 36, 36, 36, 36, 36, 36, 36, 36, 36,
  36, 36, 36, 36, 36, 36, 36, 36, 36, 36, 36, 36, 36, 36, 36, 36,
  36, 36, 36, 36, 36, 36, 36, 36, 36, 36, 36, 36, 36, 36, 36, 36]

/-- `DigitValue(digit) = kAsciiToInt[digit & 0xFF]`. -/
def DigitValue (c : Nat) : Nat := kAsciiToInt.getD (c % 256) 36

/-- TranslateEscape: map an escape letter to the escaped byte
(default branch returns `'?'` = 63). -/
def TranslateEscape (c : Nat) : Nat :=
  if c = 97 then 7        -- 'a' -> '\a'
  else if c = 98 then 8   -- 'b' -> '\b'
  else if c = 102 then 12 -- 'f' -> '\f'
  else if c = 110 then 10 -- 'n' -> '\n'
  else if c = 114 then 13 -- 'r' -> '\r'
  else if c = 116 then 9  -- 't' -> '\t'
  else if c = 118 then 11 -- 'v' -> '\v'
  else if c = 92 then 92  -- backslash
  else if c = 63 then 63  -- '?'
  else if c = 39 then 39  -- single quote
  else if c = 34 then 34  -- double quote
  else 63

def UINT64_MAX : Nat := 2 ^ 64 - 1

/-! ### upb_Parse_Integer

The C function walks a NUL-terminated digit string.  The first loop skips
leading zero digits and seeds `result` with the first nonzero digit; the
second loop folds the remaining digits into `result` with the
pre-multiplication overflow check `result >= UINT64_MAX/base + 1` and the
post-addition wrap check `result < base` on the `uint64_t` value. -/

/-- The first loop of `upb_Parse_Integer`: skip leading zeros, stop at the
first nonzero digit (which seeds `result`), fail on a digit that is not
valid for `base`.  An interior 0 byte terminates the C string, making both
loops exit with the current result, which is modelled by returning the
seed 0 together with an empty remainder. -/
def upb_Parse_Integer_skipZeros (base : Nat) : List Nat → Option (Nat × List Nat)
  | [] => some (0, [])
  | c :: rest =>
    if c = 0 then some (0, [])
    else
      let digit := DigitValue c
      if digit ≥ base then none
      else if digit ≠ 0 then some (digit, rest)
      else upb_Parse_Integer_skipZeros base rest

/-- The second loop of `upb_Parse_Integer`: fold each digit into `result`
with the overflow checks of the C code (`uint64_t` wrap is `% 2^64`). -/
def upb_Parse_Integer_loop (base overflow_if_mul_base : Nat) :
    Nat → List Nat → Option Nat
  | result, [] => some result
  | result, c :: rest =>
    if c = 0 then some result
    else
      let digit := DigitValue c
      if digit ≥ base then none
      else if result ≥ overflow_if_mul_base then none
      else
        let result := (result * base + digit) % 2 ^ 64
        if result < base then none
        else upb_Parse_Integer_loop base overflow_if_mul_base result rest

/-- The numeric base inferred from the text: `0x`/`0X` is hex,
a leading `0` otherwise is octal, anything else is decimal.
Reading `ptr[0]`/`ptr[1]` past the end of the list yields the NUL byte 0,
exactly as for a NUL-terminated C string. -/
def upb_Parse_Integer_base (text : List Nat) : Nat :=
  if text.getD 0 0 = 48 then
    if text.getD 1 0 = 120 ∨ text.getD 1 0 = 88 then 16 else 8
  else 10

/-- The digit portion of the text: the `0x`/`0X` two-byte marker is skipped
for hex, otherwise the whole text is used (the leading octal `0` is consumed
by the zero-skipping loop). -/
def upb_Parse_Integer_digits (text : List Nat) : List Nat :=
  if text.getD 0 0 = 48 ∧ (text.getD 1 0 = 120 ∨ text.getD 1 0 = 88) then
    text.drop 2
  else text

/-- `upb_Parse_Integer(text, max_value, output)`; `some v` models
`return true` with `*output = v`, `none` models `return false`. -/
def upb_Parse_Integer (text : List Nat) (max_value : Nat) : Option Nat :=
  let base := upb_Parse_Integer_base text
  let overflow_if_mul_base := UINT64_MAX / base + 1
  match upb_Parse_Integer_skipZeros base (upb_Parse_Integer_digits text) with
  | none => none
  | some (seed, rest) =>
    match upb_Parse_Integer_loop base overflow_if_mul_base seed rest with
    | none => none
    | some result => if result > max_value then none else some result

/-- The exact mathematical value of a digit string in the given base. -/
def digitsValue (base : Nat) (l : List Nat) : Nat :=
  l.foldl (fun a c => a * base + DigitValue c) 0

/-- Every digit of the string is valid for the given base. -/
def digitsValid (base : Nat) (l : List Nat) : Prop :=
  ∀ c ∈ l, DigitValue c < base

instance (base : Nat) (l : List Nat) : Decidable (digitsValid base l) := by
  unfold digitsValid; infer_instance

example : upb_Parse_Integer [49, 50, 51] 200 = some 123 := by decide
example : upb_Parse_Integer [48, 55, 55] UINT64_MAX = some 63 := by decide
example : upb_Parse_Integer [48, 57, 57] UINT64_MAX = none := by decide
example : upb_Parse_Integer [48, 120] UINT64_MAX = some 0 := by decide

/-! ### Correctness of upb_Parse_Integer -/

/-- Folding digits onto an accumulator never decreases it (each step
multiplies by `base ≥ 1` and adds a digit value). -/
theorem foldl_digits_le (base : Nat) (hb : 1 ≤ base) (l : List Nat) :
    ∀ a : Nat, a ≤ l.foldl (fun a c => a * base + DigitValue c) a := by
  induction l with
  | nil => intro a; simp
  | cons c rest ih =>
    intro a
    rw [List.foldl_cons]
    refine le_trans ?_ (ih _)
    have h1 : a ≤ a * base := le_mul_of_one_le_right (Nat.zero_le a) hb
    omega

theorem upb_Parse_Integer_loop_spec (base : Nat) (hb2 : 2 ≤ base)
    (hb16 : base ≤ 16) (l : List Nat) :
    ∀ r : Nat, 0 ∉ l → 1 ≤ r → r ≤ UINT64_MAX →
    upb_Parse_Integer_loop base (UINT64_MAX / base + 1) r l =
      if (∀ c ∈ l, DigitValue c < base) ∧
          l.foldl (fun a c => a * base + DigitValue c) r ≤ UINT64_MAX then
        some (l.foldl (fun a c => a * base + DigitValue c) r)
      else none := by
  have hpow : (2 : Nat) ^ 64 = 18446744073709551616 := by norm_num
  have hM : UINT64_MAX = 18446744073709551615 := by rw [UINT64_MAX, hpow]
  induction l with
  | nil =>
    intro r _ _ hrM
    simp [upb_Parse_Integer_loop, hrM]
  | cons c rest ih =>
    intro r h0 hr1 hrM
    have hc0 : c ≠ 0 := fun h => h0 (by simp [h])
    have h0' : 0 ∉ rest := fun h => h0 (List.mem_cons_of_mem _ h)
    rw [upb_Parse_Integer_loop, if_neg hc0]
    simp only [List.forall_mem_cons, List.foldl_cons]
    by_cases hdb : DigitValue c ≥ base
    · rw [if_pos hdb, if_neg]
      rintro ⟨⟨hv, _⟩, _⟩
      omega
    · push_neg at hdb
      rw [if_neg (by omega)]
      by_cases hpre : r ≥ UINT64_MAX / base + 1
      · rw [if_pos hpre]
        have hdiv : UINT64_MAX / base < r :=
          lt_of_lt_of_le (Nat.lt_succ_self _) hpre
        have hrb : UINT64_MAX < r * base :=
          (Nat.div_lt_iff_lt_mul (show 0 < base by omega)).mp hdiv
        have hfold := foldl_digits_le base (by omega) rest
          (r * base + DigitValue c)
        have hcond : ¬((DigitValue c < base ∧ ∀ x ∈ rest, DigitValue x < base) ∧
            rest.foldl (fun a c => a * base + DigitValue c)
              (r * base + DigitValue c) ≤ UINT64_MAX) := by
          rintro ⟨_, hle⟩
          omega
        rw [if_neg hcond]
      · rw [if_neg hpre]
        have hdiv : r ≤ UINT64_MAX / base := Nat.lt_succ_iff.mp (not_le.mp hpre)
        have hrb : r * base ≤ UINT64_MAX :=
          (Nat.le_div_iff_mul_le (show 0 < base by omega)).mp hdiv
        have hbase_le : base ≤ r * base :=
          le_mul_of_one_le_left (Nat.zero_le base) hr1
        by_cases hov : r * base + DigitValue c < 2 ^ 64
        · have hmod : (r * base + DigitValue c) % 2 ^ 64
              = r * base + DigitValue c := Nat.mod_eq_of_lt hov
          rw [hmod, if_neg (by omega)]
          rw [ih _ h0' (by omega) (by omega)]
          by_cases hA : ∀ x ∈ rest, DigitValue x < base
          · simp only [hA, hdb, true_and]
          · rw [if_neg (by tauto), if_neg (by tauto)]
        · push_neg at hov
          have hmod : (r * base + DigitValue c) % 2 ^ 64
              = r * base + DigitValue c - 2 ^ 64 := by
            rw [Nat.mod_eq_sub_mod hov, Nat.mod_eq_of_lt (by omega)]
          rw [hmod, if_pos (by omega)]
          have hfold := foldl_digits_le base (by omega) rest
            (r * base + DigitValue c)
          have hcond : ¬((DigitValue c < base ∧ ∀ x ∈ rest, DigitValue x < base) ∧
              rest.foldl (fun a c => a * base + DigitValue c)
                (r * base + DigitValue c) ≤ UINT64_MAX) := by
            rintro ⟨_, hle⟩
            omega
          rw [if_neg hcond]

theorem upb_Parse_Integer_run_spec (base : Nat) (hb2 : 2 ≤ base)
    (hb16 : base ≤ 16) (l : List Nat) (h0 : 0 ∉ l) :
    (match upb_Parse_Integer_skipZeros base l with
     | none => none
     | some (seed, rest) =>
        upb_Parse_Integer_loop base (UINT64_MAX / base + 1) seed rest) =
      if (∀ c ∈ l, DigitValue c < base) ∧ digitsValue base l ≤ UINT64_MAX then
        some (digitsValue base l)
      else none := by
  induction l with
  | nil => simp [upb_Parse_Integer_skipZeros, upb_Parse_Integer_loop,
      digitsValue, UINT64_MAX]
  | cons c rest ih =>
    have hc0 : c ≠ 0 := fun h => h0 (by simp [h])
    have h0' : 0 ∉ rest := fun h => h0 (List.mem_cons_of_mem _ h)
    rw [upb_Parse_Integer_skipZeros, if_neg hc0]
    simp only [digitsValue, List.forall_mem_cons, List.foldl_cons,
      Nat.zero_mul, Nat.zero_add]
    by_cases hdb : DigitValue c ≥ base
    · rw [if_pos hdb, if_neg]
      rintro ⟨⟨hv, _⟩, _⟩
      omega
    · push_neg at hdb
      rw [if_neg (by omega)]
      by_cases hdz : DigitValue c = 0
      · rw [if_neg (by omega)]
        have := ih h0'
        simp only [digitsValue] at this
        rw [this, hdz]
        have hb0 : 0 < base := by omega
        simp only [hb0, true_and]
      · rw [if_pos (by omega)]
        have hred : (match some (DigitValue c, rest) with
            | none => (none : Option Nat)
            | some (seed, rest) =>
              upb_Parse_Integer_loop base (UINT64_MAX / base + 1) seed rest) =
            upb_Parse_Integer_loop base (UINT64_MAX / base + 1)
              (DigitValue c) rest := rfl
        rw [hred, upb_Parse_Integer_loop_spec base hb2 hb16 rest (DigitValue c)
          h0' (by omega) (by rw [UINT64_MAX]; omega)]
        simp only [hdb, true_and]

theorem upb_Parse_Integer_base_bounds (text : List Nat) :
    2 ≤ upb_Parse_Integer_base text ∧ upb_Parse_Integer_base text ≤ 16 := by
  unfold upb_Parse_Integer_base
  by_cases h1 : text.getD 0 0 = 48
  · by_cases h2 : text.getD 1 0 = 120 ∨ text.getD 1 0 = 88
    · rw [if_pos h1, if_pos h2]; omega
    · rw [if_pos h1, if_neg h2]; omega
  · rw [if_neg h1]; omega

theorem option_match_assoc (o : Option (Nat × List Nat))
    (f : Nat → List Nat → Option Nat) (g : Nat → Option Nat) :
    (match o with
     | none => none
     | some (s, r) =>
        match f s r with
        | none => none
        | some v => g v) =
    (match (match o with
            | none => none
            | some (s, r) => f s r) with
     | none => none
     | some v => g v) := by
  rcases o with _ | ⟨s, r⟩ <;> rfl

/-- C1: for a digit string (no interior NUL byte) the parse succeeds with
the exact positional value of the digits in the inferred base exactly when
every digit is valid for that base and the value is at most `max_value`
(which, `max_value` being a `uint64_t`, also forces the value to fit in 64
bits); together with the three concrete evaluations named by the claim. -/
theorem c1_upb_Parse_Integer_correct :
    (∀ (text : List Nat) (max_value : Nat), 0 ∉ text →
      max_value ≤ UINT64_MAX →
      upb_Parse_Integer text max_value =
        if digitsValid (upb_Parse_Integer_base text)
              (upb_Parse_Integer_digits text) ∧
            digitsValue (upb_Parse_Integer_base text)
              (upb_Parse_Integer_digits text) ≤ max_value then
          some (digitsValue (upb_Parse_Integer_base text)
            (upb_Parse_Integer_digits text))
        else none) ∧
    upb_Parse_Integer
      [49, 56, 52, 52, 54, 55, 52, 52, 48, 55, 51, 55, 48, 57, 53, 53, 49,
        54, 49, 53] UINT64_MAX = some (2 ^ 64 - 1) ∧
    upb_Parse_Integer
      [49, 56, 52, 52, 54, 55, 52, 52, 48, 55, 51, 55, 48, 57, 53, 53, 49,
        54, 49, 54] UINT64_MAX = none ∧
    upb_Parse_Integer
      [48, 120, 70, 70, 70, 70, 70, 70, 70, 70, 70, 70, 70, 70, 70, 70, 70,
        70] UINT64_MAX = some (2 ^ 64 - 1) := by
  refine ⟨?_, by decide, by decide, by decide⟩
  intro text max_value h0 hmax
  obtain ⟨hb2, hb16⟩ := upb_Parse_Integer_base_bounds text
  have h0d : 0 ∉ upb_Parse_Integer_digits text := by
    intro h
    apply h0
    unfold upb_Parse_Integer_digits at h
    split at h
    · exact List.drop_subset _ _ h
    · exact h
  have hrun := upb_Parse_Integer_run_spec (upb_Parse_Integer_base text) hb2
    hb16 (upb_Parse_Integer_digits text) h0d
  simp only [upb_Parse_Integer]
  rw [option_match_assoc, hrun]
  simp only [digitsValid]
  by_cases hcond : (∀ c ∈ upb_Parse_Integer_digits text,
      DigitValue c < upb_Parse_Integer_base text) ∧
      digitsValue (upb_Parse_Integer_base text)
        (upb_Parse_Integer_digits text) ≤ UINT64_MAX
  · rw [if_pos hcond]
    by_cases hle : digitsValue (upb_Parse_Integer_base text)
        (upb_Parse_Integer_digits text) ≤ max_value
    · simp only [if_pos (And.intro hcond.1 hle), if_neg (not_lt.mpr hle)]
    · simp only [if_pos (not_le.mp hle)]
      rw [if_neg (fun h => hle h.2)]
  · rw [if_neg hcond]
    have : ¬((∀ c ∈ upb_Parse_Integer_digits text,
        DigitValue c < upb_Parse_Integer_base text) ∧
        digitsValue (upb_Parse_Integer_base text)
          (upb_Parse_Integer_digits text) ≤ max_value) := by
      rintro ⟨hv, hle⟩
      exact hcond ⟨hv, le_trans hle hmax⟩
    rw [if_neg this]

/-- Witness for C1: the hypotheses hold and the theorem evaluates at the
concrete digit string "123" with `max_value = UINT64_MAX`. -/
theorem c1_witness :
    upb_Parse_Integer [49, 50, 51] UINT64_MAX =
      if digitsValid (upb_Parse_Integer_base [49, 50, 51])
            (upb_Parse_Integer_digits [49, 50, 51]) ∧
          digitsValue (upb_Parse_Integer_base [49, 50, 51])
            (upb_Parse_Integer_digits [49, 50, 51]) ≤ UINT64_MAX then
        some (digitsValue (upb_Parse_Integer_base [49, 50, 51])
          (upb_Parse_Integer_digits [49, 50, 51]))
      else none :=
  c1_upb_Parse_Integer_correct.1 [49, 50, 51] UINT64_MAX (by decide)
    (Nat.le_refl _)

/-! ### String literal decoding

`upb_Parse_StringAppend` and its helpers.  Pointers into the NUL-terminated
token text are embedded as suffix lists; reading a byte at or past the end
of the list yields the NUL byte 0, and advancing the pointer is `List.drop`.
The byte extraction in `AppendUTF8` (`ghtonl` followed by copying the last
`len` bytes of the `uint32_t` out of memory) is embedded for a little-endian
host, which is what the unconditional byte swap in `ghtonl` assumes. -/

def ghtonl (host_int : Nat) : Nat :=
  ((host_int &&& 0xFF) <<< 24) ||| ((host_int &&& 0xFF00) <<< 8) |||
  ((host_int &&& 0xFF0000) >>> 8) ||| ((host_int &&& 0xFF000000) >>> 24)

/-- The bytes at offsets `4 - len .. 3` of `ghtonl tmp` laid out in
little-endian memory: byte `i` of memory is `(ghtonl tmp >>> (8*i)) & 0xFF`. -/
def utf8Bytes (tmp len : Nat) : List Nat :=
  (List.range len).map fun i => ghtonl tmp >>> (8 * (4 - len + i)) &&& 0xFF

/-- One lowercase hex digit character, as produced by `%x` formatting. -/
def hexDigitChar (n : Nat) : Nat := if n < 10 then 48 + n else 87 + n

/-- The bytes written by `snprintf(temp, _, "\\U%08x", code_point)`:
a backslash, `U`, and eight zero-padded lowercase hex digits. -/
def overRangeEscapeBytes (code_point : Nat) : List Nat :=
  92 :: 85 ::
    (List.range 8).map fun i => hexDigitChar (code_point >>> (4 * (7 - i)) &&& 0xF)

/-- AppendUTF8: encode a code point as 1-4 UTF-8 bytes; values above
`0x10ffff` fall back to the literal `\Uxxxxxxxx` text. -/
def AppendUTF8 (code_point : Nat) : List Nat :=
  if code_point ≤ 0x7f then
    utf8Bytes code_point 1
  else if code_point ≤ 0x07ff then
    utf8Bytes (0x0000c080 ||| ((code_point &&& 0x07c0) <<< 2) |||
      (code_point &&& 0x003f)) 2
  else if code_point ≤ 0xffff then
    utf8Bytes (0x00e08080 ||| ((code_point &&& 0xf000) <<< 4) |||
      ((code_point &&& 0x0fc0) <<< 2) ||| (code_point &&& 0x003f)) 3
  else if code_point ≤ 0x10ffff then
    utf8Bytes (0xf0808080 ||| ((code_point &&& 0x1c0000) <<< 6) |||
      ((code_point &&& 0x03f000) <<< 4) ||| ((code_point &&& 0x000fc0) <<< 2) |||
      (code_point &&& 0x003f)) 4
  else overRangeEscapeBytes code_point

/-- The loop of ReadHexDigits: read the next `len` bytes, failing at a NUL
byte; `*result` is a `uint32_t`, so each step is taken `% 2^32`. -/
def ReadHexDigits_go : List Nat → Nat → Nat → Option Nat
  | _, 0, acc => some acc
  | l, len + 1, acc =>
    let c := l.headD 0
    if c = 0 then none
    else ReadHexDigits_go l.tail len (((acc <<< 4) + DigitValue c) % 2 ^ 32)

/-- ReadHexDigits(ptr, len, result): `some` models `return true` with the
accumulated `*result`; a zero `len` fails immediately. -/
def ReadHexDigits (l : List Nat) (len : Nat) : Option Nat :=
  if len = 0 then none else ReadHexDigits_go l len 0

def kMinHeadSurrogate : Nat := 0xd800
def kMaxHeadSurrogate : Nat := 0xdc00
def kMinTrailSurrogate : Nat := 0xdc00
def kMaxTrailSurrogate : Nat := 0xe000

def IsHeadSurrogate (code_point : Nat) : Bool :=
  decide (kMinHeadSurrogate ≤ code_point) && decide (code_point < kMaxHeadSurrogate)

def IsTrailSurrogate (code_point : Nat) : Bool :=
  decide (kMinTrailSurrogate ≤ code_point) && decide (code_point < kMaxTrailSurrogate)

/-- Combine a head and a trail surrogate into a single code point. -/
def AssembleUTF16 (head_surrogate trail_surrogate : Nat) : Nat :=
  0x10000 + (((head_surrogate - kMinHeadSurrogate) <<< 10) |||
    (trail_surrogate - kMinTrailSurrogate))

/-- Number of hex digits expected after the escape key character. -/
def UnicodeLength (key : Nat) : Nat :=
  if key = 117 then 4
  else if key = 85 then 8
  else 0

/-- FetchUnicodePoint(ptr): `l` is the text suffix starting at the `u`/`U`
key character.  `some (code_point, consumed)` models success with the
returned end pointer `ptr + consumed`; `none` models returning `ptr`
itself (failure). -/
def FetchUnicodePoint (l : List Nat) : Option (Nat × Nat) :=
  let len := UnicodeLength (l.headD 0)
  match ReadHexDigits l.tail len with
  | none => none
  | some code_point =>
    let p := 1 + len
    if IsHeadSurrogate code_point ∧ l.getD p 0 = 92 ∧ l.getD (p + 1) 0 = 117 then
      match ReadHexDigits (l.drop (p + 2)) 4 with
      | none => some (code_point, p)
      | some trail_surrogate =>
        if IsTrailSurrogate trail_surrogate then
          some (AssembleUTF16 code_point trail_surrogate, p + 6)
        else some (code_point, p)
    else some (code_point, p)

/-- The loop of `upb_Parse_StringAppend` over the text after the opening
quote, returning the appended bytes.  `fuel` bounds the number of loop
iterations; since every iteration consumes at least one byte, the
`text.length` fuel supplied by the wrapper is never exhausted. -/
def upb_Parse_StringAppend_loop (quote : Nat) : Nat → List Nat → List Nat
  | 0, _ => []
  | _ + 1, [] => []
  | fuel + 1, c :: rest =>
    if c = 0 then []
    else if c = 92 ∧ rest.headD 0 ≠ 0 then
      let d := rest.headD 0
      if OctalDigit d then
        -- an octal escape: one, two, or three digits
        let code := DigitValue d
        if OctalDigit (rest.getD 1 0) then
          let code := code * 8 + DigitValue (rest.getD 1 0)
          if OctalDigit (rest.getD 2 0) then
            (code * 8 + DigitValue (rest.getD 2 0)) % 256 ::
              upb_Parse_StringAppend_loop quote fuel (rest.drop 3)
          else
            code % 256 :: upb_Parse_StringAppend_loop quote fuel (rest.drop 2)
        else
          code % 256 :: upb_Parse_StringAppend_loop quote fuel (rest.drop 1)
      else if d = 120 then
        -- a hex escape: zero, one, or two digits
        if HexDigit (rest.getD 1 0) then
          let code := DigitValue (rest.getD 1 0)
          if HexDigit (rest.getD 2 0) then
            (code * 16 + DigitValue (rest.getD 2 0)) % 256 ::
              upb_Parse_StringAppend_loop quote fuel (rest.drop 3)
          else
            code % 256 :: upb_Parse_StringAppend_loop quote fuel (rest.drop 2)
        else
          0 :: upb_Parse_StringAppend_loop quote fuel (rest.drop 1)
      else if d = 117 ∨ d = 85 then
        match FetchUnicodePoint rest with
        | none =>
          -- failure: dump the u/U byte itself
          d :: upb_Parse_StringAppend_loop quote fuel (rest.drop 1)
        | some (code_point, consumed) =>
          AppendUTF8 code_point ++
            upb_Parse_StringAppend_loop quote fuel (rest.drop consumed)
      else
        TranslateEscape d :: upb_Parse_StringAppend_loop quote fuel (rest.drop 1)
    else if c = quote ∧ rest.headD 0 = 0 then
      -- ignore the final quote matching the starting quote
      upb_Parse_StringAppend_loop quote fuel rest
    else c :: upb_Parse_StringAppend_loop quote fuel rest

/-- upb_Parse_StringAppend(text, output): returns the value of `output`
after the call.  An empty text (`strlen(text) == 0`) is the asserting
early-return path and leaves `output` unchanged. -/
def upb_Parse_StringAppend (text output : List Nat) : List Nat :=
  if text.headD 0 = 0 then output
  else
    output ++
      upb_Parse_StringAppend_loop (text.headD 0) text.length (text.drop 1)

example : upb_Parse_StringAppend [34, 97, 98, 92, 117, 48, 48, 52, 49, 99,
    100, 34] [] = [97, 98, 65, 99, 100] := by decide
example : upb_Parse_StringAppend [34, 92, 117, 68, 56, 51, 68, 92, 117, 68,
    69, 48, 48, 34] [] = [240, 159, 152, 128] := by decide
example : upb_Parse_StringAppend [34, 92, 117, 68, 56, 51, 68, 122, 122, 34]
    [] = [237, 160, 189, 122, 122] := by decide
example : upb_Parse_StringAppend [34, 92, 49, 48, 49, 92, 120, 52, 49, 34]
    [] = [65, 65] := by decide

/-! ### Facts about hex digits and ReadHexDigits -/

theorem hexDigit_digitValue {c : Nat} (h : HexDigit c = true) :
    DigitValue c < 16 ∧ c ≠ 0 := by
  have hlt : c < 256 := by
    simp only [HexDigit, Bool.or_eq_true, Bool.and_eq_true,
      decide_eq_true_eq] at h
    omega
  have key : ∀ x, x < 256 → HexDigit x = true → DigitValue x < 16 ∧ x ≠ 0 := by
    decide
  exact key c hlt h

theorem readHex_step {acc d : Nat} (hacc : acc < 2 ^ 28) (hd : d < 16) :
    ((acc <<< 4) + d) % 2 ^ 32 = acc * 16 + d := by
  rw [Nat.shiftLeft_eq]
  have h4 : (2 : Nat) ^ 4 = 16 := by norm_num
  rw [h4]
  apply Nat.mod_eq_of_lt
  have h32 : (2 : Nat) ^ 32 = 4294967296 := by norm_num
  have h28 : (2 : Nat) ^ 28 = 268435456 := by norm_num
  omega

/-- The value assembled by reading four hex digit characters. -/
def hexQuadValue (h1 h2 h3 h4 : Nat) : Nat :=
  ((DigitValue h1 * 16 + DigitValue h2) * 16 + DigitValue h3) * 16 +
    DigitValue h4

theorem ReadHexDigits_four {h1 h2 h3 h4 : Nat} (rest : List Nat)
    (hh1 : HexDigit h1 = true) (hh2 : HexDigit h2 = true)
    (hh3 : HexDigit h3 = true) (hh4 : HexDigit h4 = true) :
    ReadHexDigits (h1 :: h2 :: h3 :: h4 :: rest) 4 =
      some (hexQuadValue h1 h2 h3 h4) := by
  obtain ⟨hd1, hz1⟩ := hexDigit_digitValue hh1
  obtain ⟨hd2, hz2⟩ := hexDigit_digitValue hh2
  obtain ⟨hd3, hz3⟩ := hexDigit_digitValue hh3
  obtain ⟨hd4, hz4⟩ := hexDigit_digitValue hh4
  have h28 : (2 : Nat) ^ 28 = 268435456 := by norm_num
  unfold ReadHexDigits
  rw [if_neg (by norm_num)]
  simp only [ReadHexDigits_go, List.headD_cons, List.tail_cons]
  rw [if_neg hz1, if_neg hz2, if_neg hz3, if_neg hz4]
  have e1 : ((0 <<< 4) + DigitValue h1) % 2 ^ 32 = DigitValue h1 := by
    rw [readHex_step (by omega) hd1]
    omega
  rw [e1, readHex_step (by omega) hd2, readHex_step (by omega) hd3,
    readHex_step (by omega) hd4]
  rfl

theorem shiftLeft_lor_eq_add {a b k : Nat} (hb : b < 2 ^ k) :
    (a <<< k) ||| b = a * 2 ^ k + b := by
  have h := Nat.mul_add_lt_is_or hb a
  rw [Nat.shiftLeft_eq, Nat.mul_comm a (2 ^ k), ← h]

/-- AssembleUTF16 computes exactly
`0x10000 + ((hi - 0xD800) << 10) + (lo - 0xDC00)`: the bitwise-or of the
shifted head offset with the 10-bit trail offset is an addition. -/
theorem AssembleUTF16_eq_add {hi lo : Nat} (hlo1 : 0xdc00 ≤ lo)
    (hlo2 : lo < 0xe000) :
    AssembleUTF16 hi lo = 0x10000 + ((hi - 0xd800) <<< 10) + (lo - 0xdc00) := by
  unfold AssembleUTF16 kMinHeadSurrogate kMinTrailSurrogate
  rw [shiftLeft_lor_eq_add (show lo - 0xdc00 < 2 ^ 10 by norm_num; omega)]
  rw [Nat.shiftLeft_eq]
  have h10 : (2 : Nat) ^ 10 = 1024 := by norm_num
  rw [h10]
  omega

theorem FetchUnicodePoint_surrogate_pair {h1 h2 h3 h4 j1 j2 j3 j4 : Nat}
    (rest : List Nat)
    (hh1 : HexDigit h1 = true) (hh2 : HexDigit h2 = true)
    (hh3 : HexDigit h3 = true) (hh4 : HexDigit h4 = true)
    (hj1 : HexDigit j1 = true) (hj2 : HexDigit j2 = true)
    (hj3 : HexDigit j3 = true) (hj4 : HexDigit j4 = true)
    (hhi1 : 0xd800 ≤ hexQuadValue h1 h2 h3 h4)
    (hhi2 : hexQuadValue h1 h2 h3 h4 < 0xdc00)
    (hlo1 : 0xdc00 ≤ hexQuadValue j1 j2 j3 j4)
    (hlo2 : hexQuadValue j1 j2 j3 j4 < 0xe000) :
    FetchUnicodePoint (117 :: h1 :: h2 :: h3 :: h4 :: 92 :: 117 :: j1 :: j2 ::
        j3 :: j4 :: rest) =
      some (AssembleUTF16 (hexQuadValue h1 h2 h3 h4)
        (hexQuadValue j1 j2 j3 j4), 11) := by
  have hhead : IsHeadSurrogate (hexQuadValue h1 h2 h3 h4) = true := by
    simp only [IsHeadSurrogate, kMinHeadSurrogate, kMaxHeadSurrogate,
      Bool.and_eq_true, decide_eq_true_eq]
    omega
  have htrail : IsTrailSurrogate (hexQuadValue j1 j2 j3 j4) = true := by
    simp only [IsTrailSurrogate, kMinTrailSurrogate, kMaxTrailSurrogate,
      Bool.and_eq_true, decide_eq_true_eq]
    omega
  unfold FetchUnicodePoint
  simp only [List.headD_cons, List.tail_cons]
  rw [show UnicodeLength 117 = 4 from rfl,
    ReadHexDigits_four _ hh1 hh2 hh3 hh4]
  simp only [List.getD_cons_succ, List.getD_cons_zero, List.drop_succ_cons,
    List.drop_zero, hhead]
  rw [ReadHexDigits_four _ hj1 hj2 hj3 hj4]
  simp [htrail]

/-! ### C2: the unpaired-surrogate example -/

/-- C2 counterexample: on the token text `"\uD83Dzz"` the appended bytes
are NOT the literal `u` followed by `D83Dzz`.  `FetchUnicodePoint` succeeds
on the four valid hex digits `D83D`, so the `u`-literal fallback is not
taken. -/
theorem c2_counterexample :
    upb_Parse_StringAppend [34, 92, 117, 68, 56, 51, 68, 122, 122, 34] [] ≠
      [117, 68, 56, 51, 68, 122, 122] := by decide

/-- C2 amended: on the token text `"\uD83Dzz"` the `\u` escape succeeds
with the unpaired head surrogate U+D83D as its code point (the trail check
fails only the pairing, not the fetch), so the bytes appended are the
three-byte UTF-8-style encoding ED A0 BD of U+D83D followed by `zz`; the
call returns normally (the embedding is a total function).  The `u`-literal
fallback would require `FetchUnicodePoint` to fail, which happens only when
a NUL byte sits among the four hex digits. -/
theorem c2_unpaired_surrogate_actual :
    upb_Parse_StringAppend [34, 92, 117, 68, 56, 51, 68, 122, 122, 34] [] =
      [0xED, 0xA0, 0xBD, 122, 122] ∧
    FetchUnicodePoint [117, 68, 56, 51, 68, 122, 122, 34] =
      some (0xD83D, 5) ∧
    AppendUTF8 0xD83D = [0xED, 0xA0, 0xBD] := by
  exact ⟨by decide, by decide, by decide⟩

/-! ### C9: failure characterization of FetchUnicodePoint -/

theorem DigitValue_le_36 (c : Nat) : DigitValue c ≤ 36 := by
  have h256 : c % 256 < 256 := Nat.mod_lt _ (by norm_num)
  have key : ∀ x, x < 256 → kAsciiToInt.getD x 36 ≤ 36 := by decide
  exact key _ h256

theorem ReadHexDigits_go_none (len : Nat) : ∀ (l : List Nat) (acc : Nat),
    (ReadHexDigits_go l len acc = none ↔ ∃ i < len, l.getD i 0 = 0) := by
  induction len with
  | zero => intro l acc; simp [ReadHexDigits_go]
  | succ len ih =>
    intro l acc
    rcases l with _ | ⟨c, tl⟩
    · simp only [ReadHexDigits_go, List.headD_nil, if_pos rfl]
      constructor
      · intro _; exact ⟨0, by omega, by simp⟩
      · intro _; rfl
    · by_cases hc : c = 0
      · subst hc
        simp only [ReadHexDigits_go, List.headD_cons, if_pos rfl]
        constructor
        · intro _; exact ⟨0, by omega, by simp⟩
        · intro _; rfl
      · rw [ReadHexDigits_go]
        simp only [List.headD_cons, List.tail_cons, if_neg hc]
        rw [ih tl]
        constructor
        · rintro ⟨i, hi, hgd⟩
          exact ⟨i + 1, by omega, by simpa using hgd⟩
        · rintro ⟨i, hi, hgd⟩
          rcases i with _ | i
          · rw [List.getD_cons_zero] at hgd
            exact absurd hgd hc
          · rw [List.getD_cons_succ] at hgd
            exact ⟨i, by omega, hgd⟩

theorem ReadHexDigits_none_iff (l : List Nat) (len : Nat) :
    ReadHexDigits l len = none ↔ (len = 0 ∨ ∃ i < len, l.getD i 0 = 0) := by
  unfold ReadHexDigits
  by_cases h : len = 0
  · simp [h]
  · rw [if_neg h, ReadHexDigits_go_none]
    simp [h]

theorem ReadHexDigits_go_some (len : Nat) : ∀ (l : List Nat) (acc : Nat),
    (∀ i < len, l.getD i 0 ≠ 0) →
    ReadHexDigits_go l len acc =
      some ((List.range len).foldl
        (fun a i => ((a <<< 4) + DigitValue (l.getD i 0)) % 2 ^ 32) acc) := by
  induction len with
  | zero => intro l acc _; simp [ReadHexDigits_go]
  | succ len ih =>
    intro l acc h
    rcases l with _ | ⟨c, tl⟩
    · exact absurd (by simp : ([] : List Nat).getD 0 0 = 0) (h 0 (by omega))
    · have hc : c ≠ 0 := by
        have := h 0 (by omega)
        rwa [List.getD_cons_zero] at this
      rw [ReadHexDigits_go]
      simp only [List.headD_cons, List.tail_cons, if_neg hc]
      rw [ih tl _ (fun i hi => by
        have := h (i + 1) (by omega)
        rwa [List.getD_cons_succ] at this)]
      simp only [List.range_succ_eq_map, List.foldl_cons, List.foldl_map,
        List.getD_cons_zero, List.getD_cons_succ, Nat.succ_eq_add_one]

theorem FetchUnicodePoint_none_iff (key : Nat) (rest : List Nat)
    (hkey : key = 117 ∨ key = 85) :
    FetchUnicodePoint (key :: rest) = none ↔
      ∃ i < UnicodeLength key, rest.getD i 0 = 0 := by
  have hlen0 : UnicodeLength key ≠ 0 := by
    rcases hkey with h | h <;> subst h <;> decide
  unfold FetchUnicodePoint
  simp only [List.headD_cons, List.tail_cons]
  rcases hread : ReadHexDigits rest (UnicodeLength key) with _ | cp
  · rw [ReadHexDigits_none_iff] at hread
    rcases hread with h | h
    · exact absurd h hlen0
    · exact iff_of_true rfl h
  · have hnone : ¬∃ i < UnicodeLength key, rest.getD i 0 = 0 := by
      intro hex
      have hrn : ReadHexDigits rest (UnicodeLength key) = none :=
        (ReadHexDigits_none_iff _ _).mpr (Or.inr hex)
      rw [hread] at hrn
      exact Option.noConfusion hrn
    refine iff_of_false ?_ hnone
    intro h
    dsimp only at h
    split at h
    · split at h
      · exact Option.noConfusion h
      · split at h <;> exact Option.noConfusion h
    · exact Option.noConfusion h

/-- C9: with a `u` or `U` key character, FetchUnicodePoint fails (returns
its input pointer, making the caller emit the raw key byte) exactly when a
NUL byte occurs among the 4 (`\u`) or 8 (`\U`) bytes after the key; any
other bytes in that window are folded into the `uint32_t` result through
`(*result << 4) + DigitValue(*ptr)` with no validity check, digit values
being at most 36. -/
theorem c9_fetch_unicode_point_failure :
    (∀ (key : Nat) (rest : List Nat), key = 117 ∨ key = 85 →
      (FetchUnicodePoint (key :: rest) = none ↔
        ∃ i < UnicodeLength key, rest.getD i 0 = 0)) ∧
    (∀ (len : Nat) (l : List Nat), 0 < len → (∀ i < len, l.getD i 0 ≠ 0) →
      ReadHexDigits l len =
        some ((List.range len).foldl
          (fun a i => ((a <<< 4) + DigitValue (l.getD i 0)) % 2 ^ 32) 0)) ∧
    (∀ c : Nat, DigitValue c ≤ 36) := by
  refine ⟨fun key rest h => FetchUnicodePoint_none_iff key rest h,
    fun len l hlen h => ?_, DigitValue_le_36⟩
  unfold ReadHexDigits
  rw [if_neg (by omega), ReadHexDigits_go_some len l 0 h]

/-- Witness for C9: the characterization applied to the `u` key with the
window `D8\0D` (a NUL among the four hex digits), where the fetch fails. -/
theorem c9_witness :
    FetchUnicodePoint (117 :: [68, 56, 0, 68]) = none ↔
      ∃ i < UnicodeLength 117, [68, 56, 0, 68].getD i 0 = 0 :=
  c9_fetch_unicode_point_failure.1 117 [68, 56, 0, 68] (Or.inl rfl)

/-! ### C3: surrogate pair reassembly -/

/-- C3: whenever the string-append loop reaches a `\u` escape whose four
hex digits form a head surrogate immediately followed by a `\u` escape
whose four hex digits form a trail surrogate, it appends the UTF-8
encoding of the single reassembled code point
`0x10000 + ((hi - 0xD800) << 10) + (lo - 0xDC00)` and continues past the
combined twelve-byte sequence; concretely, parsing `"😀"`
appends exactly the bytes F0 9F 98 80. -/
theorem c3_surrogate_pair_reassembly :
    (∀ (quote fuel h1 h2 h3 h4 j1 j2 j3 j4 : Nat) (rest : List Nat),
      HexDigit h1 = true → HexDigit h2 = true → HexDigit h3 = true →
      HexDigit h4 = true → HexDigit j1 = true → HexDigit j2 = true →
      HexDigit j3 = true → HexDigit j4 = true →
      0xd800 ≤ hexQuadValue h1 h2 h3 h4 → hexQuadValue h1 h2 h3 h4 < 0xdc00 →
      0xdc00 ≤ hexQuadValue j1 j2 j3 j4 → hexQuadValue j1 j2 j3 j4 < 0xe000 →
      upb_Parse_StringAppend_loop quote (fuel + 1)
          (92 :: 117 :: h1 :: h2 :: h3 :: h4 :: 92 :: 117 :: j1 :: j2 :: j3 ::
            j4 :: rest) =
        AppendUTF8 (0x10000 + ((hexQuadValue h1 h2 h3 h4 - 0xd800) <<< 10) +
            (hexQuadValue j1 j2 j3 j4 - 0xdc00)) ++
          upb_Parse_StringAppend_loop quote fuel rest) ∧
    upb_Parse_StringAppend [34, 92, 117, 68, 56, 51, 68, 92, 117, 68, 69, 48,
      48, 34] [] = [0xF0, 0x9F, 0x98, 0x80] := by
  refine ⟨?_, by decide⟩
  intro quote fuel h1 h2 h3 h4 j1 j2 j3 j4 rest hh1 hh2 hh3 hh4 hj1 hj2 hj3
    hj4 hhi1 hhi2 hlo1 hlo2
  have hfetch := FetchUnicodePoint_surrogate_pair rest hh1 hh2 hh3 hh4 hj1
    hj2 hj3 hj4 hhi1 hhi2 hlo1 hlo2
  rw [upb_Parse_StringAppend_loop]
  norm_num [List.headD_cons, OctalDigit]
  rw [hfetch]
  norm_num [List.drop_succ_cons]
  rw [AssembleUTF16_eq_add hlo1 hlo2]

/-- Witness for C3: the surrogate-pair rule applied to the concrete escape
sequence `😀` (digit bytes `D83D` and `DE00`). -/
theorem c3_witness :
    upb_Parse_StringAppend_loop 34 (0 + 1)
        (92 :: 117 :: 68 :: 56 :: 51 :: 68 :: 92 :: 117 :: 68 :: 69 :: 48 ::
          48 :: []) =
      AppendUTF8 (0x10000 + ((hexQuadValue 68 56 51 68 - 0xd800) <<< 10) +
          (hexQuadValue 68 69 48 48 - 0xdc00)) ++
        upb_Parse_StringAppend_loop 34 0 [] :=
  c3_surrogate_pair_reassembly.1 34 0 68 56 51 68 68 69 48 48 []
    (by decide) (by decide) (by decide) (by decide) (by decide) (by decide)
    (by decide) (by decide) (by decide) (by decide) (by decide) (by decide)

/-! ### The tokenizer state machine

The `upb_Tokenizer` struct is embedded with the whole flat input array as
`buffer` and an always-empty chunked stream, so the single `Refresh` at
buffer exhaustion latches `read_error`.  The C field `current_char` always
equals `buffer[buffer_pos]` while `buffer_pos < buffer_size` and `'\0'`
otherwise (the struct invariant), so it is embedded as the derived function
`currentChar` rather than duplicated state.  `record_target` can only ever
point at `current.text` (`Next` passes NULL comment content everywhere), so
it is embedded as the flag `record_on`, and the content-recording branches
of the comment consumers are omitted; `record_start` is parked at 0 instead
of -1 while recording is off (the C code never reads it then).  The error
collector is embedded as an accumulated list of `(line, column, message)`
triples.  Loops take explicit fuel; every theorem below is either proved
for all fuel values or applied at a fuel that the concrete input provably
does not exhaust. -/

inductive upb_TokenType where
  | START
  | END
  | IDENTIFIER
  | INTEGER
  | FLOAT
  | STRING
  | SYMBOL
  | WHITESPACE
  | NEWLINE
deriving DecidableEq

inductive upb_CommentStyle where
  | CPP
  | SH
deriving DecidableEq

inductive NextCommentStatus where
  | LINE_COMMENT
  | BLOCK_COMMENT
  | SLASH_NOT_COMMENT
  | NO_COMMENT
deriving DecidableEq

structure upb_Token where
  type : upb_TokenType
  line : Nat
  column : Nat
  end_column : Nat
  text : List Nat
deriving DecidableEq

/-- upb_Token_Init: the START token at position zero with empty text. -/
def upb_Token_Init : upb_Token :=
  { type := .START, line := 0, column := 0, end_column := 0, text := [] }

structure upb_Tokenizer where
  current : upb_Token
  previous : upb_Token
  buffer : List Nat
  buffer_pos : Nat
  read_error : Bool
  line : Nat
  column : Nat
  record_on : Bool
  record_start : Nat
  allow_f_after_float : Bool
  comment_style : upb_CommentStyle
  require_space_after_number : Bool
  allow_multiline_strings : Bool
  report_whitespace : Bool
  report_newlines : Bool
  errors : List (Nat × Nat × String)
deriving DecidableEq

/-- The struct invariant `current_char == buffer_[buffer_pos_]`, with `'\0'`
at or past the end of the buffer, as a derived read. -/
def currentChar (t : upb_Tokenizer) : Nat := t.buffer.getD t.buffer_pos 0

/-- AddError: report at the current line and column. -/
def AddError (t : upb_Tokenizer) (message : String) : upb_Tokenizer :=
  { t with errors := t.errors ++ [(t.line, t.column, message)] }

/-- Refresh: flush any live recording, then ask the (always-exhausted)
stream for more data, latching `read_error`.  Once latched this is a
no-op (the C code only re-zeroes `current_char`). -/
def Refresh (t : upb_Tokenizer) : upb_Tokenizer :=
  if t.read_error then t
  else
    let t :=
      if t.record_on ∧ t.record_start < t.buffer.length then
        { t with
          current := { t.current with
            text := t.current.text ++
              (t.buffer.drop t.record_start).take
                (t.buffer.length - t.record_start) },
          record_start := 0 }
      else t
    { t with buffer := [], buffer_pos := 0, read_error := true }

/-- The second half of NextChar: advance `buffer_pos` and refresh at the
end of the buffer. -/
def NextChar_advance (t : upb_Tokenizer) : upb_Tokenizer :=
  let t := { t with buffer_pos := t.buffer_pos + 1 }
  if t.buffer_pos < t.buffer.length then t else Refresh t

/-- NextChar: update line/column from the consumed byte, advance, and
refresh at the end of the buffer. -/
def NextChar (t : upb_Tokenizer) : upb_Tokenizer :=
  NextChar_advance
    (if currentChar t = 10 then
      { t with line := t.line + 1, column := 0 }
    else if currentChar t = 9 then
      { t with column := t.column + (kTabWidth - t.column % kTabWidth) }
    else
      { t with column := t.column + 1 })

def RecordTo (t : upb_Tokenizer) : upb_Tokenizer :=
  { t with record_on := true, record_start := t.buffer_pos }

def StopRecording (t : upb_Tokenizer) : upb_Tokenizer :=
  { t with
    current := { t.current with
      text := t.current.text ++
        (t.buffer.drop t.record_start).take
          (t.buffer_pos - t.record_start) },
    record_on := false, record_start := 0 }

/-- StartToken: reset the current token at the present position and begin
recording into its text. -/
def StartToken (t : upb_Tokenizer) : upb_Tokenizer :=
  RecordTo { t with
    current := { t.current with
      type := .START, text := [], line := t.line, column := t.column } }

/-- EndToken: stop recording and stamp the end column. -/
def EndToken (t : upb_Tokenizer) : upb_Tokenizer :=
  let t := StopRecording t
  { t with current := { t.current with end_column := t.column } }

def TryConsumeOne (f : Nat → Bool) (t : upb_Tokenizer) :
    Bool × upb_Tokenizer :=
  if f (currentChar t) then (true, NextChar t) else (false, t)

def TryConsume (c : Nat) (t : upb_Tokenizer) : Bool × upb_Tokenizer :=
  if currentChar t = c then (true, NextChar t) else (false, t)

def ConsumeZeroOrMore (f : Nat → Bool) : Nat → upb_Tokenizer → upb_Tokenizer
  | 0, t => t
  | fuel + 1, t =>
    if f (currentChar t) then ConsumeZeroOrMore f fuel (NextChar t) else t

def ConsumeOneOrMore (f : Nat → Bool) (err_msg : String) (fuel : Nat)
    (t : upb_Tokenizer) : upb_Tokenizer :=
  if ¬ f (currentChar t) then AddError t err_msg
  else ConsumeZeroOrMore f fuel (NextChar t)

/-- The short-circuit chain `!TryConsumeOne(HexDigit) || ... ` of the
`\\u`/`\\U` arms of ConsumeString: consume up to `count` hex digits one at
a time, reporting `msg` once at the first failure and consuming nothing
further, exactly as the C `||` chain does. -/
def TryConsumeHexDigits (msg : String) : Nat → upb_Tokenizer → upb_Tokenizer
  | 0, t => t
  | count + 1, t =>
    let r := TryConsumeOne HexDigit t
    if ¬r.1 then AddError r.2 msg else TryConsumeHexDigits msg count r.2

/-- ConsumeString: consume the body of a string literal (the opening quote
is already consumed), ending when the delimiter is consumed.  The `\u` and
`\U` arms consume hex digits one at a time with the short-circuit order of
the C condition, reporting an error at the first failure. -/
def ConsumeString (delimiter : Nat) : Nat → upb_Tokenizer → upb_Tokenizer
  | 0, t => t
  | fuel + 1, t =>
    if currentChar t = 0 then AddError t "Unexpected end of string."
    else if currentChar t = 10 then
      if ¬t.allow_multiline_strings then
        AddError t "String literals cannot cross line boundaries."
      else ConsumeString delimiter fuel (NextChar t)
    else if currentChar t = 92 then
      let t := NextChar t
      let t :=
        if Escape (currentChar t) then NextChar t
        else if OctalDigit (currentChar t) then NextChar t
        else if currentChar t = 120 then
          let t := NextChar t
          if HexDigit (currentChar t) then NextChar t
          else AddError t "Expected hex digits for escape sequence."
        else if currentChar t = 117 then
          TryConsumeHexDigits
            "Expected four hex digits for \\u escape sequence." 4 (NextChar t)
        else if currentChar t = 85 then
          let t := NextChar t
          let msg :=
            "Expected eight hex digits up to 10ffff for \\U escape sequence"
          let r1 := TryConsume 48 t
          if ¬r1.1 then AddError r1.2 msg
          else
            let r2 := TryConsume 48 r1.2
            if ¬r2.1 then AddError r2.2 msg
            else
              let r3a := TryConsume 48 r2.2
              let r3 := if r3a.1 then r3a else TryConsume 49 r3a.2
              if ¬r3.1 then AddError r3.2 msg
              else TryConsumeHexDigits msg 5 r3.2
        else AddError t "Invalid escape sequence in string literal."
      ConsumeString delimiter fuel t
    else if currentChar t = delimiter then NextChar t
    else ConsumeString delimiter fuel (NextChar t)

/-- The post-checks at the end of ConsumeNumber: letter adjacency and a
stray second decimal point, then the FLOAT/INTEGER classification. -/
def ConsumeNumber_post (t : upb_Tokenizer) (is_float : Bool) :
    upb_TokenType × upb_Tokenizer :=
  let t :=
    if Letter (currentChar t) ∧ t.require_space_after_number then
      AddError t "Need space between number and identifier."
    else if currentChar t = 46 then
      if is_float then
        AddError t
          "Already saw decimal point or exponent; can't have another one."
      else AddError t "Hex and octal numbers must be integers."
    else t
  (if is_float then .FLOAT else .INTEGER, t)

/-- ConsumeNumber: consume the rest of a number (the first character is
already consumed) and classify it as FLOAT or INTEGER. -/
def ConsumeNumber (fuel : Nat) (t : upb_Tokenizer)
    (started_with_zero started_with_dot : Bool) :
    upb_TokenType × upb_Tokenizer :=
  if started_with_zero ∧ (currentChar t = 120 ∨ currentChar t = 88) then
    let t := NextChar t
    let t := ConsumeOneOrMore HexDigit
      "\"0x\" must be followed by hex digits." fuel t
    ConsumeNumber_post t false
  else if started_with_zero ∧ Digit (currentChar t) then
    let t := ConsumeZeroOrMore OctalDigit fuel t
    let t :=
      if Digit (currentChar t) then
        ConsumeZeroOrMore Digit fuel
          (AddError t "Numbers starting with leading zero must be in octal.")
      else t
    ConsumeNumber_post t false
  else
    let p1 : Bool × upb_Tokenizer :=
      if started_with_dot then (true, ConsumeZeroOrMore Digit fuel t)
      else
        let t := ConsumeZeroOrMore Digit fuel t
        if currentChar t = 46 then
          (true, ConsumeZeroOrMore Digit fuel (NextChar t))
        else (false, t)
    let p2 : Bool × upb_Tokenizer :=
      if currentChar p1.2 = 101 ∨ currentChar p1.2 = 69 then
        let t := NextChar p1.2
        let t :=
          if currentChar t = 45 then NextChar t
          else if currentChar t = 43 then NextChar t
          else t
        (true, ConsumeOneOrMore Digit "\"e\" must be followed by exponent."
          fuel t)
      else p1
    let p3 : Bool × upb_Tokenizer :=
      if p2.2.allow_f_after_float ∧
          (currentChar p2.2 = 102 ∨ currentChar p2.2 = 70) then
        (true, NextChar p2.2)
      else p2
    ConsumeNumber_post p3.2 p3.1

/-- ConsumeLineComment with NULL content (as `Next` always passes):
consume up to and including the newline. -/
def ConsumeLineComment (fuel : Nat) (t : upb_Tokenizer) : upb_Tokenizer :=
  let t := ConsumeZeroOrMore (fun c => decide (c ≠ 0 ∧ c ≠ 10)) fuel t
  (TryConsume 10 t).2

/-- The loop of ConsumeBlockComment with NULL content.  The branch order
and consumption mirror the short-circuit `TryConsume` chains of the C
code. -/
def ConsumeBlockComment_loop (start_line start_column : Nat) :
    Nat → upb_Tokenizer → upb_Tokenizer
  | 0, t => t
  | fuel + 1, t =>
    let t := ConsumeZeroOrMore
      (fun c => decide (c ≠ 0 ∧ c ≠ 42 ∧ c ≠ 47 ∧ c ≠ 10)) fuel t
    if currentChar t = 10 then
      let t := NextChar t
      let t := ConsumeZeroOrMore WhitespaceNoNewline fuel t
      if currentChar t = 42 then
        let t := NextChar t
        if currentChar t = 47 then NextChar t
        else ConsumeBlockComment_loop start_line start_column fuel t
      else ConsumeBlockComment_loop start_line start_column fuel t
    else if currentChar t = 42 then
      let t := NextChar t
      if currentChar t = 47 then NextChar t
      else if currentChar t = 0 then
        let t := AddError t "End-of-file inside block comment."
        { t with errors := t.errors ++
            [(start_line, start_column, "  Comment started here.")] }
      else ConsumeBlockComment_loop start_line start_column fuel t
    else if currentChar t = 47 then
      let t := NextChar t
      if currentChar t = 42 then
        ConsumeBlockComment_loop start_line start_column fuel
          (AddError t
            "\"/*\" inside block comment.  Block comments cannot be nested.")
      else if currentChar t = 0 then
        let t := AddError t "End-of-file inside block comment."
        { t with errors := t.errors ++
            [(start_line, start_column, "  Comment started here.")] }
      else ConsumeBlockComment_loop start_line start_column fuel t
    else if currentChar t = 0 then
      let t := AddError t "End-of-file inside block comment."
      { t with errors := t.errors ++
          [(start_line, start_column, "  Comment started here.")] }
    else ConsumeBlockComment_loop start_line start_column fuel t

/-- ConsumeBlockComment: record the opener position (`column - 2`, the two
bytes `/*` having just been consumed) for the unterminated-comment
follow-up error. -/
def ConsumeBlockComment (fuel : Nat) (t : upb_Tokenizer) : upb_Tokenizer :=
  ConsumeBlockComment_loop t.line (t.column - 2) fuel t

/-- TryConsumeCommentStart: in CPP style a consumed `/` becomes a line
comment, block comment, or a pre-filled SYMBOL token. -/
def TryConsumeCommentStart (t : upb_Tokenizer) :
    NextCommentStatus × upb_Tokenizer :=
  if t.comment_style = .CPP ∧ currentChar t = 47 then
    let t := NextChar t
    if currentChar t = 47 then (.LINE_COMMENT, NextChar t)
    else if currentChar t = 42 then (.BLOCK_COMMENT, NextChar t)
    else
      (.SLASH_NOT_COMMENT,
        { t with current :=
          { type := .SYMBOL, text := [47], line := t.line,
            column := t.column - 1, end_column := t.column } })
  else if t.comment_style = .SH ∧ currentChar t = 35 then
    (.LINE_COMMENT, NextChar t)
  else (.NO_COMMENT, t)

/-- TryConsumeWhitespace: under `report_newlines` a whitespace run excludes
newlines; otherwise it is any whitespace run, reported only when
`report_whitespace` is set (the WHITESPACE type is stamped either way). -/
def TryConsumeWhitespace (fuel : Nat) (t : upb_Tokenizer) :
    Bool × upb_Tokenizer :=
  if t.report_newlines then
    if WhitespaceNoNewline (currentChar t) then
      let t := ConsumeZeroOrMore WhitespaceNoNewline fuel (NextChar t)
      (true, { t with current := { t.current with type := .WHITESPACE } })
    else (false, t)
  else
    if Whitespace (currentChar t) then
      let t := ConsumeZeroOrMore Whitespace fuel (NextChar t)
      (t.report_whitespace,
        { t with current := { t.current with type := .WHITESPACE } })
    else (false, t)

/-- TryConsumeNewline: a single `\n`, only when both report options are
set. -/
def TryConsumeNewline (t : upb_Tokenizer) : Bool × upb_Tokenizer :=
  if ¬t.report_whitespace ∨ ¬t.report_newlines then (false, t)
  else if currentChar t = 10 then
    let t := NextChar t
    (true, { t with current := { t.current with type := .NEWLINE } })
  else (false, t)

/-- The skip loop after an invalid control character: more unprintable
bytes, and stray NUL bytes only while no read error is latched. -/
def skipUnprintable : Nat → upb_Tokenizer → upb_Tokenizer
  | 0, t => t
  | fuel + 1, t =>
    if Unprintable (currentChar t) then skipUnprintable fuel (NextChar t)
    else if ¬t.read_error ∧ currentChar t = 0 then
      skipUnprintable fuel (NextChar t)
    else t

/-- The EOF exit of `Next`: the current token becomes END with empty text
at the reader position, and false is returned. -/
def NextEOF (t : upb_Tokenizer) : Bool × upb_Tokenizer :=
  (false,
    { t with current :=
      { type := .END, line := t.line, column := t.column,
        end_column := t.column, text := [] } })

/-- The `while (!read_error)` loop of upb_Tokenizer_Next. -/
def upb_Tokenizer_NextLoop : Nat → upb_Tokenizer → Bool × upb_Tokenizer
  | 0, t => NextEOF t
  | fuel + 1, t =>
    if t.read_error then NextEOF t
    else
      let t := StartToken t
      let w := TryConsumeWhitespace fuel t
      let r := if w.1 then w else TryConsumeNewline w.2
      let t := EndToken r.2
      if r.1 then (true, t)
      else
        let cs := TryConsumeCommentStart t
        match cs.1 with
        | .LINE_COMMENT =>
          upb_Tokenizer_NextLoop fuel (ConsumeLineComment fuel cs.2)
        | .BLOCK_COMMENT =>
          upb_Tokenizer_NextLoop fuel (ConsumeBlockComment fuel cs.2)
        | .SLASH_NOT_COMMENT => (true, cs.2)
        | .NO_COMMENT =>
          let t := cs.2
          if t.read_error then NextEOF t
          else if Unprintable (currentChar t) ∨ currentChar t = 0 then
            let t := AddError t
              "Invalid control characters encountered in text."
            let t := NextChar t
            upb_Tokenizer_NextLoop fuel (skipUnprintable fuel t)
          else
            let t := StartToken t
            let p : upb_TokenType × upb_Tokenizer :=
              if Letter (currentChar t) then
                let t := ConsumeZeroOrMore Alphanumeric fuel (NextChar t)
                (upb_TokenType.IDENTIFIER, t)
              else if currentChar t = 48 then
                ConsumeNumber fuel (NextChar t) true false
              else if currentChar t = 46 then
                let t := NextChar t
                if Digit (currentChar t) then
                  let t := NextChar t
                  let t :=
                    if t.previous.type = .IDENTIFIER ∧
                        t.current.line = t.previous.line ∧
                        t.current.column = t.previous.end_column then
                      { t with errors := t.errors ++
                        [(t.line, t.column - 2,
                          "Need space between identifier and decimal point.")] }
                    else t
                  ConsumeNumber fuel t false true
                else (upb_TokenType.SYMBOL, t)
              else if Digit (currentChar t) then
                ConsumeNumber fuel (NextChar t) false false
              else if currentChar t = 34 then
                (upb_TokenType.STRING, ConsumeString 34 fuel (NextChar t))
              else if currentChar t = 39 then
                (upb_TokenType.STRING, ConsumeString 39 fuel (NextChar t))
              else
                let t :=
                  if currentChar t &&& 0x80 ≠ 0 then
                    AddError t ("Interpreting non ascii codepoint " ++
                      toString (currentChar t) ++ ".")
                  else t
                (upb_TokenType.SYMBOL, NextChar t)
            (true,
              EndToken { p.2 with current := { p.2.current with type := p.1 } })

/-- upb_Tokenizer_Next: copy `current` into `previous` (upb_Token_Copy, a
structural copy that includes the text bytes), then run the loop. -/
def upb_Tokenizer_Next (fuel : Nat) (t : upb_Tokenizer) :
    Bool × upb_Tokenizer :=
  upb_Tokenizer_NextLoop fuel { t with previous := t.current }

/-- upb_Tokenizer_New over a flat in-memory array (no chunked stream): all
defaults as in the C constructor; an empty array triggers the initial
Refresh exactly as `if (size) ... else Refresh(t)` does. -/
def upb_Tokenizer_New (data : List Nat) : upb_Tokenizer :=
  let t : upb_Tokenizer := {
    current := upb_Token_Init, previous := upb_Token_Init,
    buffer := data, buffer_pos := 0, read_error := false,
    line := 0, column := 0, record_on := false, record_start := 0,
    allow_f_after_float := false, comment_style := .CPP,
    require_space_after_number := true, allow_multiline_strings := false,
    report_whitespace := false, report_newlines := false, errors := [] }
  if data.length = 0 then Refresh t else t

def upb_Tokenizer_CurrentColumn (t : upb_Tokenizer) : Nat :=
  t.current.column

def upb_Tokenizer_CurrentEndColumn (t : upb_Tokenizer) : Nat :=
  t.current.end_column

def upb_Tokenizer_CurrentLine (t : upb_Tokenizer) : Nat :=
  t.current.line

def upb_Tokenizer_CurrentTextSize (t : upb_Tokenizer) : Nat :=
  t.current.text.length

def upb_Tokenizer_CurrentTextData (t : upb_Tokenizer) : List Nat :=
  t.current.text

def upb_Tokenizer_CurrentType (t : upb_Tokenizer) : upb_TokenType :=
  t.current.type

def upb_Tokenizer_PreviousColumn (t : upb_Tokenizer) : Nat :=
  t.previous.column

def upb_Tokenizer_PreviousEndColumn (t : upb_Tokenizer) : Nat :=
  t.previous.end_column

def upb_Tokenizer_PreviousLine (t : upb_Tokenizer) : Nat :=
  t.previous.line

def upb_Tokenizer_PreviousTextSize (t : upb_Tokenizer) : Nat :=
  t.previous.text.length

def upb_Tokenizer_PreviousTextData (t : upb_Tokenizer) : List Nat :=
  t.previous.text

def upb_Tokenizer_PreviousType (t : upb_Tokenizer) : upb_TokenType :=
  t.previous.type

def upb_Tokenizer_SetAllowFAfterFloat (t : upb_Tokenizer) (allow : Bool) :
    upb_Tokenizer :=
  { t with allow_f_after_float := allow }

def upb_Tokenizer_SetCommentStyle (t : upb_Tokenizer)
    (style : upb_CommentStyle) : upb_Tokenizer :=
  { t with comment_style := style }

def upb_Tokenizer_SetRequireSpaceAfterNumber (t : upb_Tokenizer)
    (require : Bool) : upb_Tokenizer :=
  { t with require_space_after_number := require }

def upb_Tokenizer_SetAllowMultilineStrings (t : upb_Tokenizer)
    (allow : Bool) : upb_Tokenizer :=
  { t with allow_multiline_strings := allow }

def upb_Tokenizer_ReportWhitespace (t : upb_Tokenizer) : Bool :=
  t.report_whitespace

/-- `set_report_whitespace(false)` also clears `report_newlines`
(`t->report_newlines &= report`). -/
def upb_Tokenizer_SetReportWhitespace (t : upb_Tokenizer) (report : Bool) :
    upb_Tokenizer :=
  { t with
    report_whitespace := report,
    report_newlines := t.report_newlines && report }

def upb_Tokenizer_ReportNewlines (t : upb_Tokenizer) : Bool :=
  t.report_newlines

/-- `set_report_newlines(true)` also sets `report_whitespace`
(`t->report_whitespace |= report`). -/
def upb_Tokenizer_SetReportNewlines (t : upb_Tokenizer) (report : Bool) :
    upb_Tokenizer :=
  { t with
    report_newlines := report,
    report_whitespace := t.report_whitespace || report }

def AllInClass (f : Nat → Bool) (l : List Nat) : Bool := l.all f

/-- upb_Tokenizer_IsIdentifier over (text, size) with `size = text.length`:
nonempty, a letter-or-underscore first byte, alphanumeric-or-underscore
rest. -/
def upb_Tokenizer_IsIdentifier (text : List Nat) : Bool :=
  if text.length = 0 then false
  else if ¬ Letter (text.headD 0) then false
  else if ¬ AllInClass Alphanumeric text.tail then false
  else true

/-- The text recorded so far: what has already been flushed into the
current token plus the live slice `buffer[record_start .. buffer_pos)`.
StopRecording appends exactly the live slice, so the stopped token's text
is this value. -/
def recordedText (t : upb_Tokenizer) : List Nat :=
  t.current.text ++
    (t.buffer.drop t.record_start).take (t.buffer_pos - t.record_start)

/-! ### Frame lemmas: operations that never touch `previous`, and the
reader position fields preserved by Refresh -/

theorem Refresh_previous (t : upb_Tokenizer) :
    (Refresh t).previous = t.previous := by
  unfold Refresh
  split_ifs <;> rfl

theorem Refresh_column (t : upb_Tokenizer) :
    (Refresh t).column = t.column := by
  unfold Refresh
  split_ifs <;> rfl

theorem Refresh_line (t : upb_Tokenizer) :
    (Refresh t).line = t.line := by
  unfold Refresh
  split_ifs <;> rfl

theorem NextChar_advance_previous (t : upb_Tokenizer) :
    (NextChar_advance t).previous = t.previous := by
  unfold NextChar_advance
  try dsimp only
  split_ifs <;> simp [Refresh_previous]

theorem NextChar_previous (t : upb_Tokenizer) :
    (NextChar t).previous = t.previous := by
  unfold NextChar
  rw [NextChar_advance_previous]
  split_ifs <;> rfl

theorem NextChar_advance_column (t : upb_Tokenizer) :
    (NextChar_advance t).column = t.column := by
  unfold NextChar_advance
  try dsimp only
  split_ifs <;> simp [Refresh_column]

theorem NextChar_advance_line (t : upb_Tokenizer) :
    (NextChar_advance t).line = t.line := by
  unfold NextChar_advance
  try dsimp only
  split_ifs <;> simp [Refresh_line]

attribute [simp] Refresh_previous NextChar_advance_previous NextChar_previous

@[simp] theorem RecordTo_previous (t : upb_Tokenizer) :
    (RecordTo t).previous = t.previous := rfl

@[simp] theorem StopRecording_previous (t : upb_Tokenizer) :
    (StopRecording t).previous = t.previous := rfl

@[simp] theorem StartToken_previous (t : upb_Tokenizer) :
    (StartToken t).previous = t.previous := rfl

@[simp] theorem EndToken_previous (t : upb_Tokenizer) :
    (EndToken t).previous = t.previous := rfl

@[simp] theorem AddError_previous (t : upb_Tokenizer) (msg : String) :
    (AddError t msg).previous = t.previous := rfl

@[simp] theorem NextEOF_previous (t : upb_Tokenizer) :
    (NextEOF t).2.previous = t.previous := rfl

@[simp] theorem TryConsumeOne_previous (f : Nat → Bool) (t : upb_Tokenizer) :
    (TryConsumeOne f t).2.previous = t.previous := by
  unfold TryConsumeOne
  split_ifs <;> simp

@[simp] theorem TryConsume_previous (c : Nat) (t : upb_Tokenizer) :
    (TryConsume c t).2.previous = t.previous := by
  unfold TryConsume
  split_ifs <;> simp

@[simp] theorem ConsumeZeroOrMore_previous (f : Nat → Bool) :
    ∀ (fuel : Nat) (t : upb_Tokenizer),
    (ConsumeZeroOrMore f fuel t).previous = t.previous := by
  intro fuel
  induction fuel with
  | zero => intro t; rfl
  | succ fuel ih =>
    intro t
    rw [ConsumeZeroOrMore]
    split_ifs <;> simp [ih]

@[simp] theorem ConsumeOneOrMore_previous (f : Nat → Bool) (msg : String)
    (fuel : Nat) (t : upb_Tokenizer) :
    (ConsumeOneOrMore f msg fuel t).previous = t.previous := by
  unfold ConsumeOneOrMore
  split_ifs <;> simp

@[simp] theorem TryConsumeHexDigits_previous (msg : String) :
    ∀ (count : Nat) (t : upb_Tokenizer),
    (TryConsumeHexDigits msg count t).previous = t.previous := by
  intro count
  induction count with
  | zero => intro t; rfl
  | succ count ih =>
    intro t
    rw [TryConsumeHexDigits]
    try dsimp only
    split_ifs <;> simp [ih]

theorem ite_previous (c : Prop) [inst : Decidable c] (a b : upb_Tokenizer) :
    (if c then a else b).previous = if c then a.previous else b.previous := by
  split_ifs <;> rfl

theorem ite_snd (c : Prop) [inst : Decidable c] (a b : Bool × upb_Tokenizer) :
    (if c then a else b).2 = if c then a.2 else b.2 := by
  split_ifs <;> rfl

@[simp] theorem ConsumeString_previous (delimiter : Nat) :
    ∀ (fuel : Nat) (t : upb_Tokenizer),
    (ConsumeString delimiter fuel t).previous = t.previous := by
  intro fuel
  induction fuel with
  | zero => intro t; rfl
  | succ fuel ih =>
    intro t
    rw [ConsumeString]
    by_cases h0 : currentChar t = 0
    · rw [if_pos h0]; rfl
    · rw [if_neg h0]
      by_cases h10 : currentChar t = 10
      · rw [if_pos h10]
        simp only [ite_previous, AddError_previous, ih, NextChar_previous,
          ite_self]
      · rw [if_neg h10]
        by_cases h92 : currentChar t = 92
        · rw [if_pos h92]
          dsimp only
          rw [ih]
          generalize hta : NextChar t = ta
          have htap : ta.previous = t.previous := by rw [← hta]; simp
          generalize htb : NextChar ta = tb
          have htbp : tb.previous = t.previous := by rw [← htb]; simp [htap]
          generalize hr1 : TryConsume 48 tb = r1
          have hr1p : r1.2.previous = t.previous := by
            rw [← hr1, TryConsume_previous]; exact htbp
          generalize hr2 : TryConsume 48 r1.2 = r2
          have hr2p : r2.2.previous = t.previous := by
            rw [← hr2, TryConsume_previous]; exact hr1p
          generalize hr3a : TryConsume 48 r2.2 = r3a
          have hr3ap : r3a.2.previous = t.previous := by
            rw [← hr3a, TryConsume_previous]; exact hr2p
          generalize hr3 : (if r3a.1 = true then r3a
            else TryConsume 49 r3a.2) = r3
          have hr3p : r3.2.previous = t.previous := by
            rw [← hr3]
            split_ifs
            · exact hr3ap
            · rw [TryConsume_previous]; exact hr3ap
          split_ifs <;> simp [htap, htbp, hr1p, hr2p, hr3ap, hr3p]
        · rw [if_neg h92]
          by_cases hd : currentChar t = delimiter
          · rw [if_pos hd]; simp
          · rw [if_neg hd, ih]; simp

@[simp] theorem ConsumeNumber_post_previous (t : upb_Tokenizer)
    (is_float : Bool) :
    (ConsumeNumber_post t is_float).2.previous = t.previous := by
  unfold ConsumeNumber_post
  try dsimp only
  split_ifs <;> simp

@[simp] theorem ConsumeNumber_previous (fuel : Nat) (t : upb_Tokenizer)
    (started_with_zero started_with_dot : Bool) :
    (ConsumeNumber fuel t started_with_zero started_with_dot).2.previous =
      t.previous := by
  unfold ConsumeNumber
  try dsimp only
  repeat' split
  all_goals simp

@[simp] theorem ConsumeLineComment_previous (fuel : Nat)
    (t : upb_Tokenizer) :
    (ConsumeLineComment fuel t).previous = t.previous := by
  unfold ConsumeLineComment
  simp

@[simp] theorem ConsumeBlockComment_loop_previous
    (start_line start_column : Nat) :
    ∀ (fuel : Nat) (t : upb_Tokenizer),
    (ConsumeBlockComment_loop start_line start_column fuel t).previous =
      t.previous := by
  intro fuel
  induction fuel with
  | zero => intro t; rfl
  | succ fuel ih =>
    intro t
    rw [ConsumeBlockComment_loop]
    try dsimp only
    repeat' split
    all_goals simp [ih]

@[simp] theorem ConsumeBlockComment_previous (fuel : Nat)
    (t : upb_Tokenizer) :
    (ConsumeBlockComment fuel t).previous = t.previous := by
  unfold ConsumeBlockComment
  simp

@[simp] theorem TryConsumeCommentStart_previous (t : upb_Tokenizer) :
    (TryConsumeCommentStart t).2.previous = t.previous := by
  unfold TryConsumeCommentStart
  try dsimp only
  repeat' split
  all_goals simp

@[simp] theorem TryConsumeWhitespace_previous (fuel : Nat)
    (t : upb_Tokenizer) :
    (TryConsumeWhitespace fuel t).2.previous = t.previous := by
  unfold TryConsumeWhitespace
  try dsimp only
  repeat' split
  all_goals simp

@[simp] theorem TryConsumeNewline_previous (t : upb_Tokenizer) :
    (TryConsumeNewline t).2.previous = t.previous := by
  unfold TryConsumeNewline
  try dsimp only
  repeat' split
  all_goals simp

@[simp] theorem skipUnprintable_previous :
    ∀ (fuel : Nat) (t : upb_Tokenizer),
    (skipUnprintable fuel t).previous = t.previous := by
  intro fuel
  induction fuel with
  | zero => intro t; rfl
  | succ fuel ih =>
    intro t
    rw [skipUnprintable]
    split_ifs <;> simp [ih]

theorem NextLoop_previous : ∀ (fuel : Nat) (t : upb_Tokenizer),
    (upb_Tokenizer_NextLoop fuel t).2.previous = t.previous := by
  intro fuel
  induction fuel with
  | zero => intro t; rfl
  | succ fuel ih =>
    intro t
    rw [upb_Tokenizer_NextLoop]
    by_cases hre : t.read_error = true
    · rw [if_pos hre]; rfl
    · rw [if_neg hre]
      try dsimp only
      generalize hw : TryConsumeWhitespace fuel (StartToken t) = w
      have hwp : w.2.previous = t.previous := by rw [← hw]; simp
      generalize hr : (if w.1 = true then w else TryConsumeNewline w.2) = r
      have hrp : r.2.previous = t.previous := by
        rw [← hr]; split_ifs <;> simp [hwp]
      generalize ht1 : EndToken r.2 = t1
      have ht1p : t1.previous = t.previous := by rw [← ht1]; simp [hrp]
      by_cases hrep : r.1 = true
      · rw [if_pos hrep]
        exact ht1p
      · rw [if_neg hrep]
        generalize hcs : TryConsumeCommentStart t1 = cs
        have hcsp : cs.2.previous = t.previous := by rw [← hcs]; simp [ht1p]
        obtain ⟨s, t2⟩ := cs
        simp only at hcsp
        cases s <;> dsimp only
        · rw [ih]
          simp [hcsp]
        · rw [ih]
          simp [hcsp]
        · exact hcsp
        · by_cases h1 : t2.read_error = true
          · rw [if_pos h1]
            exact hcsp
          · rw [if_neg h1]
            by_cases h2 : Unprintable (currentChar t2) = true ∨
                currentChar t2 = 0
            · rw [if_pos h2, ih]
              simp [hcsp]
            · rw [if_neg h2]
              rw [EndToken_previous]
              split_ifs <;> simp [hcsp]

/-! ### C4: column and line counting -/

/-- C4: For every byte the reader consumes, a newline sets the column to 0
and increments the line, a tab advances the column to the next multiple of
8 (`kTabWidth`), and any other byte advances the column by exactly 1; 
consequently for input `"\tA"` the token `A` has column 8, for `"\t\tA"`
column 16, and for `"AB\tC"` the token `C` has column 8. -/
theorem c4_column_counting :
    (∀ t : upb_Tokenizer,
      (NextChar t).line =
        (if currentChar t = 10 then t.line + 1 else t.line) ∧
      (NextChar t).column =
        (if currentChar t = 10 then 0
         else if currentChar t = 9 then
           kTabWidth * (t.column / kTabWidth + 1)
         else t.column + 1)) ∧
    (upb_Tokenizer_Next 8 (upb_Tokenizer_New [9, 65])).2.current.text =
      [65] ∧
    (upb_Tokenizer_Next 8 (upb_Tokenizer_New [9, 65])).2.current.column =
      8 ∧
    (upb_Tokenizer_Next 8 (upb_Tokenizer_New [9, 9, 65])).2.current.text =
      [65] ∧
    (upb_Tokenizer_Next 8
      (upb_Tokenizer_New [9, 9, 65])).2.current.column = 16 ∧
    (upb_Tokenizer_Next 8
      ((upb_Tokenizer_Next 8
        (upb_Tokenizer_New [65, 66, 9, 67])).2)).2.current.text = [67] ∧
    (upb_Tokenizer_Next 8
      ((upb_Tokenizer_Next 8
        (upb_Tokenizer_New [65, 66, 9, 67])).2)).2.current.column = 8 := by
  refine ⟨fun t => ⟨?_, ?_⟩, by decide, by decide, by decide, by decide,
    by decide, by decide⟩
  · unfold NextChar
    rw [NextChar_advance_line]
    split_ifs <;> rfl
  · unfold NextChar
    rw [NextChar_advance_column]
    split_ifs with h1 h2
    · rfl
    · show t.column + (kTabWidth - t.column % kTabWidth) =
        kTabWidth * (t.column / kTabWidth + 1)
      simp only [kTabWidth]
      omega
    · rfl

/-! ### C5: `previous` holds the entry value of `current` -/

/-- C5: After every call to upb_Tokenizer_Next — whether it returns true
or false — the previous token equals, as a structural copy including the
text bytes, the value the current token had immediately before the call,
as observed both on the token record and through every Previous*/Current*
accessor pair. -/
theorem c5_previous_is_entry_current (fuel : Nat) (t : upb_Tokenizer) :
    (upb_Tokenizer_Next fuel t).2.previous = t.current ∧
    upb_Tokenizer_PreviousType (upb_Tokenizer_Next fuel t).2 =
      upb_Tokenizer_CurrentType t ∧
    upb_Tokenizer_PreviousLine (upb_Tokenizer_Next fuel t).2 =
      upb_Tokenizer_CurrentLine t ∧
    upb_Tokenizer_PreviousColumn (upb_Tokenizer_Next fuel t).2 =
      upb_Tokenizer_CurrentColumn t ∧
    upb_Tokenizer_PreviousEndColumn (upb_Tokenizer_Next fuel t).2 =
      upb_Tokenizer_CurrentEndColumn t ∧
    upb_Tokenizer_PreviousTextData (upb_Tokenizer_Next fuel t).2 =
      upb_Tokenizer_CurrentTextData t ∧
    upb_Tokenizer_PreviousTextSize (upb_Tokenizer_Next fuel t).2 =
      upb_Tokenizer_CurrentTextSize t := by
  have h : (upb_Tokenizer_Next fuel t).2.previous = t.current := by
    unfold upb_Tokenizer_Next
    rw [NextLoop_previous]
  exact ⟨h, by rw [upb_Tokenizer_PreviousType, upb_Tokenizer_CurrentType, h],
    by rw [upb_Tokenizer_PreviousLine, upb_Tokenizer_CurrentLine, h],
    by rw [upb_Tokenizer_PreviousColumn, upb_Tokenizer_CurrentColumn, h],
    by rw [upb_Tokenizer_PreviousEndColumn,
      upb_Tokenizer_CurrentEndColumn, h],
    by rw [upb_Tokenizer_PreviousTextData,
      upb_Tokenizer_CurrentTextData, h],
    by rw [upb_Tokenizer_PreviousTextSize,
      upb_Tokenizer_CurrentTextSize, h]⟩

/-! ### C6: exhaustion, the END token and the read-error latch -/

/-- Once `read_error` is latched, the whole `while (!read_error)` loop of
Next is skipped and the EOF exit runs. -/
theorem NextLoop_read_error (fuel : Nat) (t : upb_Tokenizer)
    (h : t.read_error = true) :
    upb_Tokenizer_NextLoop fuel t = NextEOF t := by
  cases fuel with
  | zero => rfl
  | succ fuel => rw [upb_Tokenizer_NextLoop, if_pos h]

/-- C6: When input is exhausted (the `read_error` latch is set), Next
returns false and sets the current token to END with empty text at the
reader's line and column; the latch stays set, Refresh is a no-op, and
every later call to Next returns false again with the same END token, so
the stream ends deterministically. -/
theorem c6_eof_end_token_latch (fuel fuel2 : Nat) (t : upb_Tokenizer)
    (h : t.read_error = true) :
    (upb_Tokenizer_Next fuel t).1 = false ∧
    (upb_Tokenizer_Next fuel t).2.current =
      { type := .END, line := t.line, column := t.column,
        end_column := t.column, text := [] } ∧
    (upb_Tokenizer_Next fuel t).2.read_error = true ∧
    Refresh t = t ∧
    (upb_Tokenizer_Next fuel2 (upb_Tokenizer_Next fuel t).2).1 = false ∧
    (upb_Tokenizer_Next fuel2 (upb_Tokenizer_Next fuel t).2).2.current =
      (upb_Tokenizer_Next fuel t).2.current := by
  have h1 : upb_Tokenizer_Next fuel t =
      NextEOF { t with previous := t.current } := by
    unfold upb_Tokenizer_Next
    exact NextLoop_read_error fuel _ h
  have h2 : (upb_Tokenizer_Next fuel t).2.read_error = true := by
    rw [h1]; exact h
  have h3 : upb_Tokenizer_Next fuel2 (upb_Tokenizer_Next fuel t).2 =
      NextEOF { (upb_Tokenizer_Next fuel t).2 with
        previous := (upb_Tokenizer_Next fuel t).2.current } := by
    unfold upb_Tokenizer_Next
    exact NextLoop_read_error fuel2 _ h2
  refine ⟨by rw [h1]; rfl, by rw [h1]; rfl, h2, ?_, by rw [h3]; rfl, ?_⟩
  · unfold Refresh
    rw [if_pos h]
  · rw [h3, h1]
    rfl

/-- Witness for C6 at the concrete tokenizer over the empty input, whose
construction latches `read_error` immediately. -/
theorem c6_witness :
    (upb_Tokenizer_New []).read_error = true ∧
    ((upb_Tokenizer_Next 3 (upb_Tokenizer_New [])).1 = false ∧
     (upb_Tokenizer_Next 3 (upb_Tokenizer_New [])).2.current =
       { type := .END, line := (upb_Tokenizer_New []).line,
         column := (upb_Tokenizer_New []).column,
         end_column := (upb_Tokenizer_New []).column, text := [] } ∧
     (upb_Tokenizer_Next 3 (upb_Tokenizer_New [])).2.read_error = true ∧
     Refresh (upb_Tokenizer_New []) = upb_Tokenizer_New [] ∧
     (upb_Tokenizer_Next 2
       (upb_Tokenizer_Next 3 (upb_Tokenizer_New [])).2).1 = false ∧
     (upb_Tokenizer_Next 2
       (upb_Tokenizer_Next 3 (upb_Tokenizer_New [])).2).2.current =
       (upb_Tokenizer_Next 3 (upb_Tokenizer_New [])).2.current) :=
  ⟨by decide, c6_eof_end_token_latch 3 2 (upb_Tokenizer_New []) (by decide)⟩

/-! ### C7: the report_whitespace / report_newlines option invariant -/

/-- C7: SetReportNewlines(true) leaves both report_newlines and
report_whitespace true, SetReportWhitespace(false) leaves both false, and
every call to either setter re-establishes the invariant that
report_newlines implies report_whitespace. -/
theorem c7_report_setters (t : upb_Tokenizer) :
    ((upb_Tokenizer_SetReportNewlines t true).report_newlines = true ∧
     (upb_Tokenizer_SetReportNewlines t true).report_whitespace = true) ∧
    ((upb_Tokenizer_SetReportWhitespace t false).report_whitespace =
       false ∧
     (upb_Tokenizer_SetReportWhitespace t false).report_newlines =
       false) ∧
    (∀ report : Bool,
      ((upb_Tokenizer_SetReportNewlines t report).report_newlines = true →
        (upb_Tokenizer_SetReportNewlines t report).report_whitespace =
          true) ∧
      ((upb_Tokenizer_SetReportWhitespace t report).report_newlines =
          true →
        (upb_Tokenizer_SetReportWhitespace t report).report_whitespace =
          true)) := by
  refine ⟨⟨rfl, by simp [upb_Tokenizer_SetReportNewlines]⟩,
    ⟨rfl, by simp [upb_Tokenizer_SetReportWhitespace]⟩, fun report => ⟨?_, ?_⟩⟩
  · intro h
    simp only [upb_Tokenizer_SetReportNewlines] at h ⊢
    rw [h, Bool.or_true]
  · intro h
    simp only [upb_Tokenizer_SetReportWhitespace] at h ⊢
    exact (Bool.and_eq_true _ _).mp h |>.2

/-- Witness for C7 at a concrete tokenizer, exercising both setter calls
and one of the invariant implications with its premise discharged. -/
theorem c7_witness :
    (upb_Tokenizer_SetReportNewlines (upb_Tokenizer_New [65])
      true).report_whitespace = true ∧
    (upb_Tokenizer_SetReportWhitespace (upb_Tokenizer_New [65])
      false).report_newlines = false ∧
    (upb_Tokenizer_SetReportWhitespace
      (upb_Tokenizer_SetReportNewlines (upb_Tokenizer_New [65]) true)
      true).report_whitespace = true :=
  ⟨(c7_report_setters (upb_Tokenizer_New [65])).1.2,
   (c7_report_setters (upb_Tokenizer_New [65])).2.1.2,
   ((c7_report_setters
      (upb_Tokenizer_SetReportNewlines (upb_Tokenizer_New [65]) true)).2.2
        true).2 (by decide)⟩

/-! ### C8: IDENTIFIER tokens and upb_Tokenizer_IsIdentifier -/

theorem Letter_ne_zero (c : Nat) (h : Letter c = true) : c ≠ 0 := by
  simp only [Letter, Bool.or_eq_true, Bool.and_eq_true, decide_eq_true_eq,
    beq_iff_eq] at h
  omega

theorem Alphanumeric_ne_zero (c : Nat) (h : Alphanumeric c = true) :
    c ≠ 0 := by
  simp only [Alphanumeric, Bool.or_eq_true, Bool.and_eq_true,
    decide_eq_true_eq, beq_iff_eq] at h
  omega

theorem List_drop_take_succ (B : List Nat) (rs p : Nat) (hrs : rs ≤ p)
    (hp : p < B.length) :
    (B.drop rs).take (p + 1 - rs) =
      (B.drop rs).take (p - rs) ++ [B.getD p 0] := by
  have h1 : p + 1 - rs = (p - rs) + 1 := by omega
  rw [h1, List.take_succ]
  congr 1
  rw [List.getElem?_drop]
  have h2 : rs + (p - rs) = p := by omega
  rw [h2, List.getElem?_eq_getElem hp]
  simp [List.getD_eq_getElem?_getD, List.getElem?_eq_getElem hp]

/-- One consumed byte extends the recorded text by exactly that byte, and
the recording invariants survive — also across the end-of-buffer Refresh,
which flushes the live slice into the token text. -/
theorem recordedText_NextChar_advance (u : upb_Tokenizer)
    (hrec : u.record_on = true) (hrs : u.record_start ≤ u.buffer_pos)
    (hre : u.read_error = false) (hp : u.buffer_pos < u.buffer.length) :
    recordedText (NextChar_advance u) =
      recordedText u ++ [currentChar u] ∧
    (NextChar_advance u).record_on = true ∧
    (NextChar_advance u).record_start ≤ (NextChar_advance u).buffer_pos ∧
    ((NextChar_advance u).read_error = true →
      (NextChar_advance u).buffer = []) := by
  unfold NextChar_advance
  dsimp only
  by_cases hlt : u.buffer_pos + 1 < u.buffer.length
  · rw [if_pos hlt]
    refine ⟨?_, hrec, by dsimp only; omega, ?_⟩
    · unfold recordedText currentChar
      dsimp only
      rw [List_drop_take_succ u.buffer _ _ hrs hp, ← List.append_assoc]
    · intro hh
      rw [hre] at hh
      cases hh
  · rw [if_neg hlt]
    have hlen : u.buffer_pos + 1 = u.buffer.length := by omega
    unfold Refresh
    dsimp only
    rw [if_neg (by rw [hre]; exact Bool.false_ne_true)]
    rw [if_pos ⟨hrec, by omega⟩]
    refine ⟨?_, hrec, le_refl _, fun _ => rfl⟩
    unfold recordedText currentChar
    dsimp only
    rw [← hlen, List_drop_take_succ u.buffer _ _ hrs hp,
      ← List.append_assoc]
    simp

theorem recordedText_NextChar (t : upb_Tokenizer)
    (hrec : t.record_on = true) (hrs : t.record_start ≤ t.buffer_pos)
    (hdead : t.read_error = true → t.buffer = [])
    (hc : currentChar t ≠ 0) :
    recordedText (NextChar t) = recordedText t ++ [currentChar t] ∧
    (NextChar t).record_on = true ∧
    (NextChar t).record_start ≤ (NextChar t).buffer_pos ∧
    ((NextChar t).read_error = true → (NextChar t).buffer = []) := by
  have hp : t.buffer_pos < t.buffer.length := by
    by_contra hge
    exact hc (List.getD_eq_default _ _ (by omega))
  have hre : t.read_error = false := by
    cases hrB : t.read_error
    · rfl
    · exfalso
      have hb := hdead hrB
      rw [hb] at hp
      simp at hp
  unfold NextChar
  split_ifs with h10 h9
  · exact recordedText_NextChar_advance _ hrec hrs hre hp
  · exact recordedText_NextChar_advance _ hrec hrs hre hp
  · exact recordedText_NextChar_advance _ hrec hrs hre hp

/-- A ConsumeZeroOrMore run extends the recorded text by a run of bytes
that all satisfy the class. -/
theorem recordedText_ConsumeZeroOrMore (f : Nat → Bool)
    (hf : ∀ c, f c = true → c ≠ 0) :
    ∀ (fuel : Nat) (t : upb_Tokenizer), t.record_on = true →
      t.record_start ≤ t.buffer_pos →
      (t.read_error = true → t.buffer = []) →
      ∃ l : List Nat,
        recordedText (ConsumeZeroOrMore f fuel t) =
          recordedText t ++ l ∧ l.all f = true := by
  intro fuel
  induction fuel with
  | zero =>
    intro t _ _ _
    exact ⟨[], by simp [ConsumeZeroOrMore], rfl⟩
  | succ fuel ih =>
    intro t hrec hrs hdead
    rw [ConsumeZeroOrMore]
    by_cases hcf : f (currentChar t) = true
    · rw [if_pos hcf]
      obtain ⟨hstep, h1, h2, h3⟩ :=
        recordedText_NextChar t hrec hrs hdead (hf _ hcf)
      obtain ⟨l, hl, hall⟩ := ih (NextChar t) h1 h2 h3
      refine ⟨currentChar t :: l, ?_, by simp [List.all_cons, hcf, hall]⟩
      rw [hl, hstep, List.append_assoc]
      rfl
    · rw [if_neg hcf]
      exact ⟨[], by simp, rfl⟩

/-- The IDENTIFIER arm of Next: starting a fresh recording on a letter and
consuming an alphanumeric run yields a token text that IsIdentifier
accepts. -/
theorem identifier_text (fuel : Nat) (t3 : upb_Tokenizer)
    (hrec : t3.record_on = true) (hrs : t3.record_start = t3.buffer_pos)
    (htext : t3.current.text = [])
    (hdead : t3.read_error = true → t3.buffer = [])
    (hL : Letter (currentChar t3) = true) :
    upb_Tokenizer_IsIdentifier
      (EndToken { (ConsumeZeroOrMore Alphanumeric fuel (NextChar t3)) with
        current := { (ConsumeZeroOrMore Alphanumeric fuel
          (NextChar t3)).current with
          type := .IDENTIFIER } }).current.text = true := by
  have h0 : recordedText t3 = [] := by
    unfold recordedText
    rw [htext, hrs]
    simp
  obtain ⟨hstep, h1, h2, h3⟩ :=
    recordedText_NextChar t3 hrec (le_of_eq hrs) hdead
      (Letter_ne_zero _ hL)
  obtain ⟨l, hl, hall⟩ :=
    recordedText_ConsumeZeroOrMore Alphanumeric Alphanumeric_ne_zero fuel
      (NextChar t3) h1 h2 h3
  have htext2 : (EndToken
      { (ConsumeZeroOrMore Alphanumeric fuel (NextChar t3)) with
        current := { (ConsumeZeroOrMore Alphanumeric fuel
          (NextChar t3)).current with
          type := .IDENTIFIER } }).current.text =
      recordedText (ConsumeZeroOrMore Alphanumeric fuel (NextChar t3)) :=
    rfl
  rw [htext2, hl, hstep, h0]
  unfold upb_Tokenizer_IsIdentifier
  rw [if_neg (by simp), if_neg (by simp [List.headD_cons, hL]),
    if_neg (by simp [AllInClass, List.tail_cons, hall])]

theorem EndToken_type (t : upb_Tokenizer) :
    (EndToken t).current.type = t.current.type := rfl

theorem TryConsumeWhitespace_type (fuel : Nat) (t : upb_Tokenizer)
    (h : (TryConsumeWhitespace fuel t).1 = true) :
    (TryConsumeWhitespace fuel t).2.current.type = .WHITESPACE := by
  unfold TryConsumeWhitespace at h ⊢
  dsimp only at h ⊢
  split_ifs at h ⊢ <;> first | rfl | simp at h

theorem TryConsumeNewline_type (t : upb_Tokenizer)
    (h : (TryConsumeNewline t).1 = true) :
    (TryConsumeNewline t).2.current.type = .NEWLINE := by
  unfold TryConsumeNewline at h ⊢
  dsimp only at h ⊢
  split_ifs at h ⊢ <;> first | rfl | simp at h

theorem TryConsumeCommentStart_slash (t : upb_Tokenizer)
    (h : (TryConsumeCommentStart t).1 = .SLASH_NOT_COMMENT) :
    (TryConsumeCommentStart t).2.current.type = .SYMBOL := by
  unfold TryConsumeCommentStart at h ⊢
  dsimp only at h ⊢
  split_ifs at h ⊢ <;> first | rfl | simp at h

theorem ConsumeNumber_post_fst (t : upb_Tokenizer) (is_float : Bool) :
    (ConsumeNumber_post t is_float).1 =
      if is_float = true then .FLOAT else .INTEGER := rfl

theorem ConsumeNumber_post_fst_ne (t : upb_Tokenizer) (is_float : Bool) :
    (ConsumeNumber_post t is_float).1 ≠ .IDENTIFIER := by
  rw [ConsumeNumber_post_fst]
  cases is_float <;> simp

theorem ConsumeNumber_fst_ne (fuel : Nat) (t : upb_Tokenizer)
    (started_with_zero started_with_dot : Bool) :
    (ConsumeNumber fuel t started_with_zero started_with_dot).1 ≠
      .IDENTIFIER := by
  unfold ConsumeNumber
  dsimp only
  split
  · exact ConsumeNumber_post_fst_ne _ _
  · split
    · exact ConsumeNumber_post_fst_ne _ _
    · exact ConsumeNumber_post_fst_ne _ _

/-- Every token the Next loop leaves with type IDENTIFIER has a text that
IsIdentifier accepts: the IDENTIFIER stamp is only ever placed by the
letter arm, which records a letter followed by an alphanumeric run. -/
theorem NextLoop_identifier : ∀ (fuel : Nat) (t : upb_Tokenizer),
    (upb_Tokenizer_NextLoop fuel t).2.current.type = .IDENTIFIER →
    upb_Tokenizer_IsIdentifier
      (upb_Tokenizer_NextLoop fuel t).2.current.text = true := by
  intro fuel
  induction fuel with
  | zero =>
    intro t h
    exact absurd h (by simp [upb_Tokenizer_NextLoop, NextEOF])
  | succ fuel ih =>
    intro t
    rw [upb_Tokenizer_NextLoop]
    by_cases hre : t.read_error = true
    · rw [if_pos hre]
      intro h
      exact absurd h (by simp [NextEOF])
    · rw [if_neg hre]
      try dsimp only
      generalize hw : TryConsumeWhitespace fuel (StartToken t) = w
      generalize hr : (if w.1 = true then w else TryConsumeNewline w.2) = r
      have hrty : r.1 = true → (r.2.current.type = .WHITESPACE ∨
          r.2.current.type = .NEWLINE) := by
        intro hr1
        rw [← hr] at hr1 ⊢
        by_cases hw1 : w.1 = true
        · rw [if_pos hw1] at hr1 ⊢
          rw [← hw] at hr1 ⊢
          exact Or.inl (TryConsumeWhitespace_type fuel (StartToken t) hr1)
        · rw [if_neg hw1] at hr1 ⊢
          exact Or.inr (TryConsumeNewline_type w.2 hr1)
      generalize ht1 : EndToken r.2 = t1
      have ht1ty : t1.current.type = r.2.current.type := by
        rw [← ht1]
        exact EndToken_type r.2
      by_cases hrep : r.1 = true
      · rw [if_pos hrep]
        intro h
        dsimp only at h
        rcases hrty hrep with hty | hty <;> rw [ht1ty, hty] at h <;>
          simp at h
      · rw [if_neg hrep]
        generalize hcs : TryConsumeCommentStart t1 = cs
        obtain ⟨s, t2⟩ := cs
        have hslash : s = .SLASH_NOT_COMMENT →
            t2.current.type = .SYMBOL := by
          intro hs
          subst hs
          have hsl := TryConsumeCommentStart_slash t1 (by rw [hcs])
          rw [hcs] at hsl
          exact hsl
        cases s <;> dsimp only
        · exact ih _
        · exact ih _
        · intro h
          try dsimp only at h
          rw [hslash rfl] at h
          simp at h
        · by_cases h1 : t2.read_error = true
          · rw [if_pos h1]
            intro h
            exact absurd h (by simp [NextEOF])
          · rw [if_neg h1]
            by_cases h2 : Unprintable (currentChar t2) = true ∨
                currentChar t2 = 0
            · rw [if_pos h2]
              exact ih _
            · rw [if_neg h2]
              try dsimp only
              generalize hst : StartToken t2 = t3
              have hst_rec : t3.record_on = true := by rw [← hst]; rfl
              have hst_rs : t3.record_start = t3.buffer_pos := by
                rw [← hst]; rfl
              have hst_text : t3.current.text = [] := by rw [← hst]; rfl
              have hst_re : t3.read_error = false := by
                rw [← hst]
                show t2.read_error = false
                simpa using h1
              have hst_dead : t3.read_error = true → t3.buffer = [] := by
                intro hh
                rw [hst_re] at hh
                cases hh
              by_cases hL : Letter (currentChar t3) = true
              · rw [if_pos hL]
                dsimp only
                intro _
                exact identifier_text fuel t3 hst_rec hst_rs hst_text
                  hst_dead hL
              · rw [if_neg hL]
                by_cases h48 : currentChar t3 = 48
                · rw [if_pos h48]
                  intro h
                  rw [EndToken_type] at h
                  dsimp only at h
                  exact absurd h (ConsumeNumber_fst_ne _ _ _ _)
                · rw [if_neg h48]
                  by_cases h46 : currentChar t3 = 46
                  · rw [if_pos h46]
                    try dsimp only
                    by_cases hD : Digit (currentChar (NextChar t3)) = true
                    · rw [if_pos hD]
                      intro h
                      rw [EndToken_type] at h
                      dsimp only at h
                      exact absurd h (ConsumeNumber_fst_ne _ _ _ _)
                    · rw [if_neg hD]
                      intro h
                      rw [EndToken_type] at h
                      dsimp only at h
                      simp at h
                  · rw [if_neg h46]
                    by_cases hDg : Digit (currentChar t3) = true
                    · rw [if_pos hDg]
                      intro h
                      rw [EndToken_type] at h
                      dsimp only at h
                      exact absurd h (ConsumeNumber_fst_ne _ _ _ _)
                    · rw [if_neg hDg]
                      by_cases h34 : currentChar t3 = 34
                      · rw [if_pos h34]
                        intro h
                        rw [EndToken_type] at h
                        dsimp only at h
                        simp at h
                      · rw [if_neg h34]
                        by_cases h39 : currentChar t3 = 39
                        · rw [if_pos h39]
                          intro h
                          rw [EndToken_type] at h
                          dsimp only at h
                          simp at h
                        · rw [if_neg h39]
                          intro h
                          rw [EndToken_type] at h
                          dsimp only at h
                          simp at h

/-- C8: IsIdentifier(text, size) is true iff the text is nonempty, starts
with a letter or underscore, and continues with alphanumeric-or-underscore
bytes; and every token the scanner emits with type IDENTIFIER satisfies
it. -/
theorem c8_identifier_tokens (text : List Nat) (fuel : Nat)
    (t : upb_Tokenizer) :
    (upb_Tokenizer_IsIdentifier text = true ↔
      text.length ≠ 0 ∧ Letter (text.headD 0) = true ∧
      AllInClass Alphanumeric text.tail = true) ∧
    ((upb_Tokenizer_Next fuel t).2.current.type = .IDENTIFIER →
      upb_Tokenizer_IsIdentifier
        (upb_Tokenizer_Next fuel t).2.current.text = true) := by
  constructor
  · unfold upb_Tokenizer_IsIdentifier
    by_cases hh1 : text.length = 0 <;>
      by_cases hh2 : Letter (text.headD 0) = true <;>
      by_cases hh3 : AllInClass Alphanumeric text.tail = true <;>
      simp [hh1, hh2, hh3]
  · exact NextLoop_identifier fuel { t with previous := t.current }

/-- Witness for C8: the shape test accepted on the concrete text "ab", and
the IDENTIFIER token scanned from the input "ab" accepted by
IsIdentifier. -/
theorem c8_witness :
    upb_Tokenizer_IsIdentifier [97, 98] = true ∧
    upb_Tokenizer_IsIdentifier
      (upb_Tokenizer_Next 4 (upb_Tokenizer_New [97, 98])).2.current.text =
      true :=
  ⟨(c8_identifier_tokens [97, 98] 0 (upb_Tokenizer_New [])).1.mpr
      ⟨by decide, by decide, by decide⟩,
   (c8_identifier_tokens [97] 4 (upb_Tokenizer_New [97, 98])).2
      (by decide)⟩

/-- C10: parsing the bare marker string "0x" (and "0X") succeeds with
output 0 for every `max_value`: both digit loops see the string end
immediately after the two skipped marker bytes, so the result stays 0 and
passes the max_value check — while the scanner, on the input "0x", emits
the INTEGER token with exactly that text together with the error
`"0x" must be followed by hex digits.` at line 0, column 2. -/
theorem c10_parse_integer_bare_0x (max_value : Nat) :
    (upb_Parse_Integer [48, 120] max_value = some 0 ∧
     upb_Parse_Integer [48, 88] max_value = some 0) ∧
    (upb_Tokenizer_Next 8 (upb_Tokenizer_New [48, 120])).1 = true ∧
    (upb_Tokenizer_Next 8 (upb_Tokenizer_New [48, 120])).2.current.type =
      .INTEGER ∧
    (upb_Tokenizer_Next 8 (upb_Tokenizer_New [48, 120])).2.current.text =
      [48, 120] ∧
    (upb_Tokenizer_Next 8 (upb_Tokenizer_New [48, 120])).2.errors =
      [(0, 2, "\"0x\" must be followed by hex digits.")] := by
  refine ⟨?_, by decide, by decide, by decide, by decide⟩
  constructor <;>
    simp [upb_Parse_Integer, upb_Parse_Integer_base,
      upb_Parse_Integer_digits, upb_Parse_Integer_skipZeros,
      upb_Parse_Integer_loop]
